import Mathlib

/-!
# classroom-qa: the server's rate limiter and question store

A shallow embedding of `src/server/index.js`.

* Time stamps (`Date.now()`) are integers (milliseconds); every call of
  `Date.now()` is an explicit input of the function that makes it.
* The module-level object `rateLimits` is a map from client ids to the three
  buckets of a client; the module-level array `questions` is a list.
* A JavaScript `Set` of strings is the list of its members in insertion order.
* Message payloads, roles and client ids are strings, as section 6 of the
  specification types them.
* `rateLimits` is a plain object: for a client id that is no own key but the
  name of a property inherited from `Object.prototype` (`constructor`,
  `__proto__`, `toString`, and so on) the lookup yields that inherited value, and
  `checkRateLimit` throws a TypeError. A call that throws has changed nothing;
  `none` stands for it where a returned object is expected, and a handler that
  is aborted by it leaves the state as it was. What the runtime does with the
  uncaught error afterwards is outside the model.
* `saveQuestions` and the `emit` calls write to the disk and to the sockets;
  they read `questions` and change neither `questions` nor `rateLimits`, so the
  handlers below return the new pair (`questions`, `rateLimits`) only.
-/

namespace ClassroomQA

/-! ## Rate limiter -/

/-- The keys of `RATE_LIMITS`: the three action classes. -/
inductive ActionClass where
  | questions
  | upvotes
  | teacher
deriving DecidableEq, Repr

/-- One entry of `RATE_LIMITS`. -/
structure Limit where
  count : Nat
  windowMs : Int
deriving DecidableEq, Repr

/-- The table `RATE_LIMITS` (index.js, lines 17-21). -/
def RATE_LIMITS : ActionClass → Limit
  | .questions => { count := 3, windowMs := 60000 }
  | .upvotes => { count := 10, windowMs := 10000 }
  | .teacher => { count := 15, windowMs := 30000 }

/-- The value `rateLimits[clientId]`: one array of time stamps per class. -/
structure Buckets where
  questions : List Int
  upvotes : List Int
  teacher : List Int
deriving DecidableEq, Repr

/-- The fresh entry `{ questions: [], upvotes: [], teacher: [] }`. -/
def Buckets.empty : Buckets := { questions := [], upvotes := [], teacher := [] }

/-- The property access `rateLimits[clientId][type]`. -/
def Buckets.get (b : Buckets) : ActionClass → List Int
  | .questions => b.questions
  | .upvotes => b.upvotes
  | .teacher => b.teacher

/-- The array `rateLimits[clientId][type]` after it was mutated in place. -/
def Buckets.set (b : Buckets) (type : ActionClass) (bucket : List Int) : Buckets :=
  match type with
  | .questions => { b with questions := bucket }
  | .upvotes => { b with upvotes := bucket }
  | .teacher => { b with teacher := bucket }

/-- The object `rateLimits`: `none` is a missing key. -/
abbrev RateLimits := String → Option Buckets

/-- The initial `rateLimits = {}`. -/
def RateLimits.empty : RateLimits := fun _ => none

/-- The assignment `rateLimits[clientId] = entry`. -/
def RateLimits.setClient (rl : RateLimits) (clientId : String) (entry : Buckets) : RateLimits :=
  fun c => if c = clientId then some entry else rl c

/-- The statement `delete rateLimits[clientId]`. -/
def RateLimits.deleteClient (rl : RateLimits) (clientId : String) : RateLimits :=
  fun c => if c = clientId then none else rl c

/-- The time stamps held for a client and class: those of the own entry of the
client, and none when `rateLimits` has no own entry for the client. -/
def RateLimits.bucket (rl : RateLimits) (clientId : String) (type : ActionClass) : List Int :=
  ((rl clientId).getD Buckets.empty).get type

/-- The object returned by `checkRateLimit`: `{ allowed: true }` or
`{ allowed: false, waitSeconds }`. -/
structure RateResult where
  allowed : Bool
  waitSeconds : Option Int
deriving DecidableEq, Repr

/-- `Math.ceil(x / 1000)` for an integer `x`. -/
def ceilDiv1000 (x : Int) : Int := -((-x) / 1000)

/-- The loop `while (bucket.length && now - bucket[0] > limit.windowMs) bucket.shift()`. -/
def shiftExpired (now windowMs : Int) : List Int → List Int
  | [] => []
  | t :: rest => if now - t > windowMs then shiftExpired now windowMs rest else t :: rest

/-- Lines 36-46 of `checkRateLimit` on one bucket: the bucket after the call and
the returned object. (`bucket[0]` of an empty array is `undefined`, which only a
limit with `count = 0` could reach; `RATE_LIMITS` has none.) -/
def checkBucket (limit : Limit) (now : Int) (bucket : List Int) : List Int × RateResult :=
  let kept := shiftExpired now limit.windowMs bucket
  if kept.length ≥ limit.count then
    (kept, { allowed := false,
             waitSeconds := kept.head?.map (fun t0 => ceilDiv1000 (limit.windowMs - (now - t0))) })
  else
    (kept ++ [now], { allowed := true, waitSeconds := none })

/-- The names of the properties that the plain object `rateLimits = {}` inherits
from `Object.prototype`. For each of them `rateLimits[name]` is a function or an
object, hence truthy, also when `rateLimits` has no own key of that name, and
none of these values has a property `questions`, `upvotes` or `teacher`. -/
def objectPrototypeNames : List String :=
  ["constructor", "__proto__", "hasOwnProperty", "isPrototypeOf", "propertyIsEnumerable",
   "toLocaleString", "toString", "valueOf", "__defineGetter__", "__defineSetter__",
   "__lookupGetter__", "__lookupSetter__"]

/-- The lookup `rateLimits[clientId]` finds no own entry but an inherited
value: line 29 sees a truthy value and creates no entry, `bucket` on line 34 is
`undefined`, and `bucket.length` on line 36 throws a TypeError. -/
def RateLimits.throwsFor (rl : RateLimits) (clientId : String) : Bool :=
  (rl clientId).isNone && decide (clientId ∈ objectPrototypeNames)

/-- The function `checkRateLimit(clientId, type)` (index.js, lines 26-47); `now`
is the value of `Date.now()`. The result is `rateLimits` after the call and the
returned object, or `none` when the call throws (nothing is changed then). -/
def checkRateLimit (rl : RateLimits) (clientId : String) (type : ActionClass) (now : Int) :
    RateLimits × Option RateResult :=
  if rl.throwsFor clientId then (rl, none)
  else
    let entry := (rl clientId).getD Buckets.empty
    let r := checkBucket (RATE_LIMITS type) now (entry.get type)
    (rl.setClient clientId (entry.set type r.1), some r.2)

/-- One call of `checkRateLimit` with the clock value it reads. -/
structure Call where
  clientId : String
  type : ActionClass
  now : Int
deriving DecidableEq, Repr

/-- A sequence of `checkRateLimit` calls: the final `rateLimits` and the
results in call order (`none` for a call that throws). -/
def runCalls : RateLimits → List Call → RateLimits × List (Option RateResult)
  | rl, [] => (rl, [])
  | rl, c :: cs =>
    let r := checkRateLimit rl c.clientId c.type c.now
    let rest := runCalls r.1 cs
    (rest.1, r.2 :: rest.2)

/-- The clock values of the calls of one client and class that were admitted. -/
def admittedTimes (clientId : String) (type : ActionClass) :
    List Call → List (Option RateResult) → List Int
  | c :: cs, r :: rs =>
    if c.clientId = clientId ∧ c.type = type ∧ r.map (fun x => x.allowed) = some true then
      c.now :: admittedTimes clientId type cs rs
    else admittedTimes clientId type cs rs
  | _, _ => []

/-- The clock never goes back along the calls. -/
def ClockMonotone (calls : List Call) : Prop :=
  List.Pairwise (fun a b => a.now ≤ b.now) calls

/-- The time stamp `t` lies in the closed interval of length `windowMs` that
starts at `a`. -/
def inWindow (a windowMs : Int) (t : Int) : Bool := decide (a ≤ t ∧ t ≤ a + windowMs)

/-- Reference definition of the check on one bucket, in the words of the
specification (section 4.1): drop all time stamps in the bucket older than
`now - windowMs`; if the remaining count is at least the limit, deny with
`ceil((windowMs - (now - oldestTimestamp)) / 1000)`; otherwise admit and append
`now`. The oldest time stamp is the least of the retained ones. -/
def checkBucketRef (limit : Limit) (now : Int) (bucket : List Int) : List Int × RateResult :=
  let retained := bucket.filter (fun t => !decide (t < now - limit.windowMs))
  if retained.length ≥ limit.count then
    (retained, { allowed := false,
                 waitSeconds := retained.min?.map
                   (fun oldest => ceilDiv1000 (limit.windowMs - (now - oldest))) })
  else
    (retained ++ [now], { allowed := true, waitSeconds := none })

/-- Reference definition of `check(clientId, actionClass)`: the buckets of a
client are created lazily, and only the bucket of the class is touched. The
specification has no failing check. -/
def checkRateLimitRef (rl : RateLimits) (clientId : String) (type : ActionClass) (now : Int) :
    RateLimits × RateResult :=
  let entry := (rl clientId).getD Buckets.empty
  let r := checkBucketRef (RATE_LIMITS type) now (entry.get type)
  (rl.setClient clientId (entry.set type r.1), r.2)

/-- Shape of a bucket at clock value `T`: oldest first, nothing from the future,
and no more entries than the limit admits. -/
def BucketOk (limit : Limit) (bucket : List Int) (T : Int) : Prop :=
  bucket.Pairwise (fun x y => x ≤ y) ∧ (∀ t ∈ bucket, t ≤ T) ∧ bucket.length ≤ limit.count

/-! ## Questions -/

/-- An element of the array `questions`. -/
structure Question where
  id : String
  text : String
  votes : Nat
  voters : List String
  pinned : Bool
  answered : Bool
  createdAt : Int
deriving DecidableEq, Repr

/-- A boolean as a number (`true` is 1, `false` is 0), as `-` coerces it. -/
def boolNum (b : Bool) : Int := if b then 1 else 0

/-- The comparator passed to `questions.sort` (index.js, lines 75-80). -/
def compareQuestions (a b : Question) : Int :=
  if a.pinned ≠ b.pinned then boolNum b.pinned - boolNum a.pinned
  else if a.answered ≠ b.answered then boolNum a.answered - boolNum b.answered
  else if a.votes ≠ b.votes then (b.votes : Int) - (a.votes : Int)
  else a.createdAt - b.createdAt

/-- In `Array.prototype.sort` order `a` may stay before `b`: the comparator is
not positive. -/
def questionLe (a b : Question) : Prop := compareQuestions a b ≤ 0

instance : DecidableRel questionLe := fun a b =>
  inferInstanceAs (Decidable (compareQuestions a b ≤ 0))

/-- The function `sortQuestions`: `Array.prototype.sort` is a stable sort, and
for a comparator that is a total preorder its result is the one stable sorted
arrangement, which insertion from the right computes. -/
def sortQuestions (qs : List Question) : List Question :=
  qs.insertionSort questionLe

/-- ECMAScript `WhiteSpace` and `LineTerminator` code points, which
`String.prototype.trim` removes. -/
def isJsWhiteSpace (c : Char) : Bool :=
  let n := c.toNat
  n = 0x09 || n = 0x0A || n = 0x0B || n = 0x0C || n = 0x0D || n = 0x20 || n = 0xA0 ||
  n = 0x1680 || (0x2000 ≤ n && n ≤ 0x200A) || n = 0x2028 || n = 0x2029 || n = 0x202F ||
  n = 0x205F || n = 0x3000 || n = 0xFEFF

/-- The method `String.prototype.trim`. -/
def jsTrim (s : String) : String :=
  String.mk ((s.data.dropWhile isJsWhiteSpace).reverse.dropWhile isJsWhiteSpace).reverse

/-- The property `length` of a string: its number of UTF-16 code units. -/
def jsLength (s : String) : Nat :=
  (s.data.map (fun c => if c.toNat < 0x10000 then 1 else 2)).sum

/-- The id expression `Date.now().toString() + Math.random().toString(36).slice(2, 6)`,
with the clock value and the random suffix as inputs. -/
def genId (idNow : Int) (rand : String) : String := toString idNow ++ rand

/-- The in-place update of the element returned by `questions.find(p)`: the first
element that satisfies `p` is replaced by `f` of it. -/
def modifyFirst (p : Question → Bool) (f : Question → Question) : List Question → List Question
  | [] => []
  | q :: qs => if p q then f q :: qs else q :: modifyFirst p f qs

/-- The module state: the array `questions` and the object `rateLimits`. -/
structure State where
  questions : List Question
  rateLimits : RateLimits

/-- A process that starts without a snapshot file: `loadQuestions` returns `[]`. -/
def State.init : State := { questions := [], rateLimits := RateLimits.empty }

/-- The two constants of a connection (index.js, lines 95-96), after the
defaults `|| "student"` and `|| socket.id` were applied. -/
structure Conn where
  role : String
  clientId : String
deriving DecidableEq, Repr

/-- Handler of `question:create` (index.js, lines 106-129). The three calls of
`Date.now()` and the random suffix are inputs. -/
def questionCreate (s : State) (conn : Conn) (now : Int) (text : String)
    (idNow : Int) (rand : String) (createdAt : Int) : State :=
  let limit := checkRateLimit s.rateLimits conn.clientId .questions now
  let s1 : State := { s with rateLimits := limit.1 }
  match limit.2 with
  | none => s1
  | some limit =>
    if !limit.allowed then s1
    else if text = "" || jsTrim text = "" then s1
    else if jsLength text > 300 then s1
    else
      { s1 with questions := sortQuestions (s1.questions ++
          [{ id := genId idNow rand, text := jsTrim text, votes := 0, voters := [],
             pinned := false, answered := false, createdAt := createdAt }]) }

/-- Handler of `question:upvote` (index.js, lines 132-145). -/
def questionUpvote (s : State) (conn : Conn) (now : Int) (id : String) : State :=
  let limit := checkRateLimit s.rateLimits conn.clientId .upvotes now
  let s1 : State := { s with rateLimits := limit.1 }
  match limit.2 with
  | none => s1
  | some limit =>
    if !limit.allowed then s1
    else
      match s1.questions.find? (fun q => q.id = id) with
      | none => s1
      | some q =>
        if q.voters.contains conn.clientId then s1
        else
          { s1 with questions := sortQuestions (modifyFirst (fun q => q.id = id)
              (fun q => { q with voters := q.voters ++ [conn.clientId], votes := q.votes + 1 })
              s1.questions) }

/-- Handler of `question:answer` (index.js, lines 148-159). -/
def questionAnswer (s : State) (conn : Conn) (now : Int) (id : String) : State :=
  if conn.role ≠ "teacher" then s
  else
    let limit := checkRateLimit s.rateLimits conn.clientId .teacher now
    let s1 : State := { s with rateLimits := limit.1 }
    match limit.2 with
    | none => s1
    | some limit =>
      if !limit.allowed then s1
      else
        match s1.questions.find? (fun q => q.id = id) with
        | none => s1
        | some _ =>
          { s1 with questions := sortQuestions (modifyFirst (fun q => q.id = id)
              (fun q => { q with answered := !q.answered }) s1.questions) }

/-- Handler of `question:pin` (index.js, lines 162-173). -/
def questionPin (s : State) (conn : Conn) (now : Int) (id : String) : State :=
  if conn.role ≠ "teacher" then s
  else
    let limit := checkRateLimit s.rateLimits conn.clientId .teacher now
    let s1 : State := { s with rateLimits := limit.1 }
    match limit.2 with
    | none => s1
    | some limit =>
      if !limit.allowed then s1
      else
        match s1.questions.find? (fun q => q.id = id) with
        | none => s1
        | some _ =>
          { s1 with questions := sortQuestions (modifyFirst (fun q => q.id = id)
              (fun q => { q with pinned := !q.pinned }) s1.questions) }

/-- Handler of `question:delete` (index.js, lines 176-186): `findIndex` and
`splice(index, 1)`, with no call of `sortQuestions`. -/
def questionDelete (s : State) (conn : Conn) (now : Int) (id : String) : State :=
  if conn.role ≠ "teacher" then s
  else
    let limit := checkRateLimit s.rateLimits conn.clientId .teacher now
    let s1 : State := { s with rateLimits := limit.1 }
    match limit.2 with
    | none => s1
    | some limit =>
      if !limit.allowed then s1
      else
        match s1.questions.findIdx? (fun q => q.id = id) with
        | none => s1
        | some index => { s1 with questions := s1.questions.eraseIdx index }

/-- Handler of `disconnect` (index.js, lines 101-103). -/
def disconnect (s : State) (conn : Conn) : State :=
  { s with rateLimits := s.rateLimits.deleteClient conn.clientId }

/-- The payload of a message received on a connection, with the values the
handler reads from the environment. -/
inductive Msg where
  | create (text : String) (idNow : Int) (rand : String) (createdAt : Int)
  | upvote (id : String)
  | answer (id : String)
  | pin (id : String)
  | delete (id : String)
  | disconnect
deriving DecidableEq, Repr

/-- A message together with the connection it is received on and the clock
value `checkRateLimit` reads while it is handled. -/
structure Event where
  conn : Conn
  now : Int
  msg : Msg
deriving DecidableEq, Repr

/-- The dispatch of one message to its handler. Messages are handled one at a
time, each handler running to completion. -/
def step (s : State) (e : Event) : State :=
  match e.msg with
  | .create text idNow rand createdAt => questionCreate s e.conn e.now text idNow rand createdAt
  | .upvote id => questionUpvote s e.conn e.now id
  | .answer id => questionAnswer s e.conn e.now id
  | .pin id => questionPin s e.conn e.now id
  | .delete id => questionDelete s e.conn e.now id
  | .disconnect => disconnect s e.conn

/-- The state after a sequence of messages. -/
def run (s : State) (es : List Event) : State := es.foldl step s


/-! ## Stating the properties of the question store -/

/-- The order (pinned desc, answered asc, votes desc, createdAt asc) written
out: `a` may stand before `b`. -/
def sortedBefore (a b : Question) : Prop :=
  (a.pinned = true ∧ b.pinned = false) ∨
  (a.pinned = b.pinned ∧
    ((a.answered = false ∧ b.answered = true) ∨
     (a.answered = b.answered ∧
       (a.votes > b.votes ∨ (a.votes = b.votes ∧ a.createdAt ≤ b.createdAt)))))

/-- The question object a successful `question:create` pushes. -/
def newQuestion (text : String) (idNow : Int) (rand : String) (createdAt : Int) : Question :=
  { id := genId idNow rand, text := jsTrim text, votes := 0, voters := [],
    pinned := false, answered := false, createdAt := createdAt }

/-- What one message does to the array `questions`, as a relation between the
array before and after. -/
inductive QuestionsStep (conn : Conn) : Msg → List Question → List Question → Prop where
  | unchanged (msg : Msg) (qs : List Question) : QuestionsStep conn msg qs qs
  | created (text : String) (idNow : Int) (rand : String) (createdAt : Int)
      (qs : List Question) (hne : jsTrim text ≠ "") (hlen : jsLength text ≤ 300) :
      QuestionsStep conn (.create text idNow rand createdAt) qs
        (sortQuestions (qs ++ [newQuestion text idNow rand createdAt]))
  | upvoted (id : String) (l1 : List Question) (q : Question) (l2 : List Question)
      (hid : q.id = id) (hfirst : ∀ u ∈ l1, u.id ≠ id) (hnew : conn.clientId ∉ q.voters) :
      QuestionsStep conn (.upvote id) (l1 ++ q :: l2)
        (sortQuestions (l1 ++
          { q with voters := q.voters ++ [conn.clientId], votes := q.votes + 1 } :: l2))
  | answered (id : String) (l1 : List Question) (q : Question) (l2 : List Question)
      (hid : q.id = id) (hfirst : ∀ u ∈ l1, u.id ≠ id) (hrole : conn.role = "teacher") :
      QuestionsStep conn (.answer id) (l1 ++ q :: l2)
        (sortQuestions (l1 ++ { q with answered := !q.answered } :: l2))
  | pinned (id : String) (l1 : List Question) (q : Question) (l2 : List Question)
      (hid : q.id = id) (hfirst : ∀ u ∈ l1, u.id ≠ id) (hrole : conn.role = "teacher") :
      QuestionsStep conn (.pin id) (l1 ++ q :: l2)
        (sortQuestions (l1 ++ { q with pinned := !q.pinned } :: l2))
  | deleted (id : String) (l1 : List Question) (q : Question) (l2 : List Question)
      (hid : q.id = id) (hfirst : ∀ u ∈ l1, u.id ≠ id) (hrole : conn.role = "teacher") :
      QuestionsStep conn (.delete id) (l1 ++ q :: l2) (l1 ++ l2)

/-- The votes standing on the id `x`: the sum of `votes` over the questions
whose id is `x` (one question when ids are unique). -/
def votesOf (x : String) (qs : List Question) : Nat :=
  ((qs.filter (fun q => decide (q.id = x))).map (fun q => q.votes)).sum

/-- By how much the messages received with client id `c` raise the votes on the
id `x` along a sequence of messages, summed over those messages. -/
def raisedBy (c x : String) : State → List Event → Nat
  | _, [] => 0
  | s, e :: es =>
    (if e.conn.clientId = c then
        votesOf x (step s e).questions - votesOf x s.questions
      else 0) + raisedBy c x (step s e) es

/-- The number of questions with id `x` that do not have `c` among their voters. -/
def unvoted (c x : String) (qs : List Question) : Nat :=
  qs.countP (fun q => decide (q.id = x) && !q.voters.contains c)

/-- The message is a `question:create` whose generated id is `x`. -/
def createsId (x : String) : Msg → Bool
  | .create _ idNow rand _ => decide (genId idNow rand = x)
  | _ => false

/-- The text of the counterexample: the letter `a` followed by 300 spaces. -/
def paddedText : String := String.mk ('a' :: List.replicate 300 ' ')

/-! ## Snapshot, public view and connections -/

/-- A record of the parsed snapshot file; `voters` is the stored array, or
`none` when the field is missing or falsy. -/
structure SnapshotQuestion where
  id : String
  text : String
  votes : Nat
  voters : Option (List String)
  pinned : Bool
  answered : Bool
  createdAt : Int
deriving DecidableEq, Repr

/-- The constructor `new Set(array)`: the members in the order of their first
occurrence. -/
def setOfArray (xs : List String) : List String :=
  xs.foldl (fun acc x => if x ∈ acc then acc else acc ++ [x]) []

/-- The function `loadQuestions` (index.js, lines 50-61); `parsed` is the result
of reading and parsing the file, `none` when either of them throws. -/
def loadQuestions (parsed : Option (List SnapshotQuestion)) : List Question :=
  match parsed with
  | none => []
  | some records =>
    records.map (fun q =>
      { id := q.id, text := q.text, votes := q.votes, voters := setOfArray (q.voters.getD []),
        pinned := q.pinned, answered := q.answered, createdAt := q.createdAt })

/-- A record of the public view, as `sanitizedQuestions` builds it. -/
structure PublicQuestion where
  id : String
  text : String
  votes : Nat
  pinned : Bool
  answered : Bool
deriving DecidableEq, Repr

/-- The function `sanitizedQuestions` (index.js, lines 83-91). -/
def sanitizedQuestions (questions : List Question) : List PublicQuestion :=
  questions.map (fun q =>
    { id := q.id, text := q.text, votes := q.votes, pinned := q.pinned, answered := q.answered })

/-- The expression `value || fallback` for a query field: a missing or empty
string is falsy. -/
def orDefault (value : Option String) (fallback : String) : String :=
  match value with
  | none => fallback
  | some v => if v = "" then fallback else v

/-- The process with its open sockets: each socket has its `socket.id` and the
two constants its handlers close over. -/
structure Server where
  state : State
  sockets : List (String × Conn)

/-- The callback of `io.on("connection")` (index.js, lines 94-96): the socket is
open from now on, with its role and client id fixed. -/
def Server.connect (sv : Server) (socketId : String) (role clientId : Option String) : Server :=
  { sv with sockets := sv.sockets ++
      [(socketId, { role := orDefault role "student", clientId := orDefault clientId socketId })] }

/-- A message received on an open socket, handled with the constants of that
socket. -/
def Server.receive (sv : Server) (socketId : String) (now : Int) (msg : Msg) : Server :=
  match sv.sockets.find? (fun p => p.1 = socketId) with
  | none => sv
  | some p => { sv with state := step sv.state { conn := p.2, now := now, msg := msg } }

/-- The socket closes: its `disconnect` handler runs (index.js, lines 101-103)
and the socket is no longer open. -/
def Server.disconnectSocket (sv : Server) (socketId : String) : Server :=
  match sv.sockets.find? (fun p => p.1 = socketId) with
  | none => sv
  | some p =>
    { state := disconnect sv.state p.2,
      sockets := sv.sockets.filter (fun p => p.1 ≠ socketId) }

/-- The results of the calls made for one client and class, in call order
(`none` for a call that throws). -/
def resultsFor (clientId : String) (type : ActionClass) :
    List Call → List (Option RateResult) → List (Option RateResult)
  | c :: cs, r :: rs =>
    if c.clientId = clientId ∧ c.type = type then r :: resultsFor clientId type cs rs
    else resultsFor clientId type cs rs
  | _, _ => []

/-- The calls made for one client and class. -/
def callsFor (clientId : String) (type : ActionClass) (calls : List Call) : List Call :=
  calls.filter (fun c => decide (c.clientId = clientId ∧ c.type = type))

/-- The ids that the `question:create` messages of a sequence generate, in
order. -/
def generatedIds : List Event → List String
  | [] => []
  | e :: es =>
    match e.msg with
    | .create _ idNow rand _ => genId idNow rand :: generatedIds es
    | _ => generatedIds es

/-- A snapshot file whose records are not in sort order: an unpinned question
stands before a pinned one. -/
def unsortedSnapshot : List SnapshotQuestion :=
  [{ id := "1700000000000k3f9", text := "What is a B-tree?", votes := 0, voters := none,
     pinned := false, answered := false, createdAt := 1700000000000 },
   { id := "1700000001000x7q2", text := "Is the exam open book?", votes := 1,
     voters := some ["B", "B"], pinned := true, answered := false, createdAt := 1700000001000 },
   { id := "1700000002000m4d8", text := "Which chapter is next?", votes := 0, voters := some [],
     pinned := false, answered := false, createdAt := 1700000002000 }]

/-- The process at its start, with no socket open. -/
def Server.init : Server := { state := State.init, sockets := [] }

/-- Two tabs of one browser: the sockets `s1` and `s2` share the client id `A`;
a question was created through `s1`. -/
def twoSockets : Server :=
  ((Server.init.connect "s1" (some "student") (some "A")).connect "s2" (some "student")
    (some "A")).receive "s1" 1700000000000
      (.create "What is a B-tree?" 1700000000000 "k3f9" 1700000000001)

/-- A collection of two questions, with no rate history. -/
def twoQuestions : State :=
  { questions :=
      [⟨"1700000000000k3f9", "What is a B-tree?", 1, ["B"], false, false, 1700000000001⟩,
       ⟨"1700000001000x7q2", "Is the exam open book?", 0, [], false, false, 1700000001001⟩],
    rateLimits := RateLimits.empty }

/-! ## Rate limiter: lemmas -/

theorem shiftExpired_split (now W : Int) (b : List Int) :
    ∃ gone, b = gone ++ shiftExpired now W b ∧ ∀ d ∈ gone, now - d > W := by
  induction b with
  | nil => exact ⟨[], rfl, by simp⟩
  | cons t rest ih =>
    by_cases h : now - t > W
    · obtain ⟨gone, hsplit, hgone⟩ := ih
      refine ⟨t :: gone, ?_, ?_⟩
      · simp only [shiftExpired, if_pos h, List.cons_append]
        exact congrArg (List.cons t) hsplit
      · intro d hd
        rcases List.mem_cons.mp hd with rfl | hd
        · exact h
        · exact hgone d hd
    · exact ⟨[], by simp [shiftExpired, h], by simp⟩

theorem Buckets.get_set_same (b : Buckets) (k : ActionClass) (l : List Int) :
    (b.set k l).get k = l := by
  cases k <;> rfl

theorem Buckets.get_set_other (b : Buckets) (k k2 : ActionClass) (l : List Int) (h : k2 ≠ k) :
    (b.set k l).get k2 = b.get k2 := by
  cases k <;> cases k2 <;> first | rfl | exact absurd rfl h

theorem checkRateLimit_throws (rl : RateLimits) (c : String) (k : ActionClass) (now : Int)
    (h : rl.throwsFor c = true) : checkRateLimit rl c k now = (rl, none) := by
  simp [checkRateLimit, h]

theorem checkRateLimit_bucket_same (rl : RateLimits) (c : String) (k : ActionClass) (now : Int)
    (h : rl.throwsFor c = false) :
    (checkRateLimit rl c k now).1.bucket c k =
      (checkBucket (RATE_LIMITS k) now (rl.bucket c k)).1 := by
  simp [checkRateLimit, h, RateLimits.bucket, RateLimits.setClient, Buckets.get_set_same]

theorem checkRateLimit_result (rl : RateLimits) (c : String) (k : ActionClass) (now : Int)
    (h : rl.throwsFor c = false) :
    (checkRateLimit rl c k now).2 = some (checkBucket (RATE_LIMITS k) now (rl.bucket c k)).2 := by
  simp [checkRateLimit, h, RateLimits.bucket]

theorem checkRateLimit_bucket_other (rl : RateLimits) (c : String) (k : ActionClass) (now : Int)
    (c2 : String) (k2 : ActionClass) (h : ¬(c2 = c ∧ k2 = k)) :
    (checkRateLimit rl c k now).1.bucket c2 k2 = rl.bucket c2 k2 := by
  by_cases ht : rl.throwsFor c = true
  · rw [checkRateLimit_throws rl c k now ht]
  · have ht2 : rl.throwsFor c = false := by simpa using ht
    by_cases hc : c2 = c
    · subst hc
      have hk : k2 ≠ k := fun hk => h ⟨rfl, hk⟩
      simp [checkRateLimit, ht2, RateLimits.bucket, RateLimits.setClient,
        Buckets.get_set_other _ _ _ _ hk]
    · simp [checkRateLimit, ht2, RateLimits.bucket, RateLimits.setClient, hc]

theorem throwsFor_after (rl : RateLimits) (c : String) (k : ActionClass) (now : Int)
    (c2 : String) :
    (checkRateLimit rl c k now).1.throwsFor c2 = rl.throwsFor c2 := by
  by_cases ht : rl.throwsFor c = true
  · rw [checkRateLimit_throws rl c k now ht]
  · have ht2 : rl.throwsFor c = false := by simpa using ht
    unfold checkRateLimit
    rw [if_neg ht]
    by_cases hc : c2 = c
    · subst hc
      rw [ht2]
      simp [RateLimits.throwsFor, RateLimits.setClient]
    · simp [RateLimits.throwsFor, RateLimits.setClient, hc]

theorem checkRateLimit_bucket_unchanged (rl : RateLimits) (c0 : String) (k0 : ActionClass)
    (now : Int) (c : String) (k : ActionClass)
    (h : ¬(c0 = c ∧ k0 = k ∧ rl.throwsFor c = false)) :
    (checkRateLimit rl c0 k0 now).1.bucket c k = rl.bucket c k := by
  by_cases hsame : c = c0 ∧ k = k0
  · have ht : rl.throwsFor c0 = true := by
      by_contra hn
      exact h ⟨hsame.1.symm, hsame.2.symm, by rw [hsame.1]; simpa using hn⟩
    rw [checkRateLimit_throws _ _ _ _ ht]
  · exact checkRateLimit_bucket_other rl c0 k0 now c k hsame

theorem runCalls_throwsFor (c : String) (calls : List Call) :
    ∀ rl : RateLimits, (runCalls rl calls).1.throwsFor c = rl.throwsFor c := by
  induction calls with
  | nil => intro rl; rfl
  | cons call rest ih =>
    intro rl
    simp only [runCalls]
    rw [ih, throwsFor_after]

theorem countP_inWindow_eq_zero (a W now : Int) (l : List Int) (hnow : now ≤ a + W)
    (h : ∀ d ∈ l, now - d > W) : l.countP (inWindow a W) = 0 := by
  rw [List.countP_eq_zero]
  intro d hd
  have := h d hd
  simp only [inWindow, decide_eq_true_eq, not_and, not_le]
  intro h1
  omega

theorem window_bound_aux (c : String) (k : ActionClass) (calls : List Call) :
    ∀ (rl : RateLimits) (T : Int) (hist old : List Int),
      hist = old ++ rl.bucket c k →
      (∀ d ∈ old, T - d > (RATE_LIMITS k).windowMs) →
      (∀ call ∈ calls, T ≤ call.now) →
      ClockMonotone calls →
      (∀ a, hist.countP (inWindow a (RATE_LIMITS k).windowMs) ≤ (RATE_LIMITS k).count) →
      ∀ a, (hist ++ admittedTimes c k calls (runCalls rl calls).2).countP
        (inWindow a (RATE_LIMITS k).windowMs) ≤ (RATE_LIMITS k).count := by
  induction calls with
  | nil =>
    intro rl T hist old _ _ _ _ hP a
    simpa [admittedTimes] using hP a
  | cons call rest ih =>
    intro rl T hist old hhist hold hT hmono hP a
    have hTnow : T ≤ call.now := hT call (List.mem_cons_self _ _)
    have hmono2 : ClockMonotone rest := (List.pairwise_cons.mp hmono).2
    have hrest : ∀ c2 ∈ rest, call.now ≤ c2.now := (List.pairwise_cons.mp hmono).1
    have hold2 : ∀ d ∈ old, call.now - d > (RATE_LIMITS k).windowMs := by
      intro d hd
      have := hold d hd
      omega
    by_cases hck : call.clientId = c ∧ call.type = k ∧ rl.throwsFor c = false
    · obtain ⟨hc, hk, hthrow⟩ := hck
      obtain ⟨gone, hsplit, hgone⟩ :=
        shiftExpired_split call.now (RATE_LIMITS k).windowMs (rl.bucket c k)
      have hb := checkRateLimit_bucket_same rl c k call.now hthrow
      have hr := checkRateLimit_result rl c k call.now hthrow
      by_cases hfull :
          (shiftExpired call.now (RATE_LIMITS k).windowMs (rl.bucket c k)).length
            ≥ (RATE_LIMITS k).count
      · -- denied
        have hb2 : (checkRateLimit rl c k call.now).1.bucket c k =
            shiftExpired call.now (RATE_LIMITS k).windowMs (rl.bucket c k) := by
          rw [hb]; simp [checkBucket, hfull]
        have hr2 : (checkRateLimit rl c k call.now).2.map (fun x => x.allowed) = some false := by
          rw [hr]; simp [checkBucket, hfull]
        have hadm : admittedTimes c k (call :: rest) (runCalls rl (call :: rest)).2 =
            admittedTimes c k rest (runCalls (checkRateLimit rl c k call.now).1 rest).2 := by
          simp [runCalls, admittedTimes, hc, hk, hr2]
        rw [hadm]
        refine ih _ call.now hist (old ++ gone) ?_ ?_ hrest hmono2 hP a
        · rw [hb2, List.append_assoc, ← hsplit]; exact hhist
        · intro d hd
          rcases List.mem_append.mp hd with hd | hd
          · exact hold2 d hd
          · exact hgone d hd
      · -- admitted
        have hb2 : (checkRateLimit rl c k call.now).1.bucket c k =
            shiftExpired call.now (RATE_LIMITS k).windowMs (rl.bucket c k) ++ [call.now] := by
          rw [hb]; simp [checkBucket, hfull]
        have hr2 : (checkRateLimit rl c k call.now).2.map (fun x => x.allowed) = some true := by
          rw [hr]; simp [checkBucket, hfull]
        have hadm : admittedTimes c k (call :: rest) (runCalls rl (call :: rest)).2 =
            call.now ::
              admittedTimes c k rest (runCalls (checkRateLimit rl c k call.now).1 rest).2 := by
          simp [runCalls, admittedTimes, hc, hk, hr2]
        rw [hadm]
        have hstep := ih (checkRateLimit rl c k call.now).1 call.now (hist ++ [call.now])
          (old ++ gone) ?_ ?_ hrest hmono2 ?_ a
        · simpa using hstep
        · rw [hb2, hhist]
          conv_lhs => rw [hsplit]
          simp
        · intro d hd
          rcases List.mem_append.mp hd with hd | hd
          · exact hold2 d hd
          · exact hgone d hd
        · intro a2
          by_cases hin : inWindow a2 (RATE_LIMITS k).windowMs call.now = true
          · have hle : call.now ≤ a2 + (RATE_LIMITS k).windowMs := by
              simp only [inWindow, decide_eq_true_eq] at hin
              exact hin.2
            have h1 := countP_inWindow_eq_zero a2 _ call.now old hle hold2
            have h2 := countP_inWindow_eq_zero a2 _ call.now gone hle hgone
            have h3 : hist = old ++ gone ++
                shiftExpired call.now (RATE_LIMITS k).windowMs (rl.bucket c k) := by
              rw [hhist, List.append_assoc, ← hsplit]
            have h4 := List.countP_le_length (inWindow a2 (RATE_LIMITS k).windowMs)
              (l := shiftExpired call.now (RATE_LIMITS k).windowMs (rl.bucket c k))
            rw [h3]
            simp only [List.countP_append, h1, h2, List.countP_cons, List.countP_nil, hin]
            simp only [ge_iff_le, not_le] at hfull
            simp
            omega
          · have := hP a2
            simpa [List.countP_append, List.countP_cons, hin] using this
    · have hb := checkRateLimit_bucket_unchanged rl call.clientId call.type call.now c k hck
      have hadm : admittedTimes c k (call :: rest) (runCalls rl (call :: rest)).2 =
          admittedTimes c k rest
            (runCalls (checkRateLimit rl call.clientId call.type call.now).1 rest).2 := by
        simp only [runCalls, admittedTimes]
        rw [if_neg]
        intro h
        apply hck
        refine ⟨h.1, h.2.1, ?_⟩
        by_contra hn
        have ht : rl.throwsFor call.clientId = true := by rw [h.1]; simpa using hn
        rw [checkRateLimit_throws _ _ _ _ ht] at h
        simp at h
      rw [hadm]
      exact ih _ call.now hist old (by rw [hb]; exact hhist) hold2 hrest hmono2 hP a

theorem admittedTimes_sublist (c : String) (k : ActionClass) (calls : List Call) :
    ∀ rs : List (Option RateResult), (admittedTimes c k calls rs).Sublist (calls.map (fun x => x.now)) := by
  induction calls with
  | nil => intro rs; simp [admittedTimes]
  | cons call rest ih =>
    intro rs
    cases rs with
    | nil => simp [admittedTimes]
    | cons r rs =>
      simp only [admittedTimes, List.map_cons]
      split
      · exact (ih rs).cons₂ _
      · exact (ih rs).cons _

theorem admittedTimes_sorted (c : String) (k : ActionClass) (calls : List Call)
    (rs : List (Option RateResult)) (h : ClockMonotone calls) :
    (admittedTimes c k calls rs).Pairwise (fun x y => x ≤ y) := by
  have h2 : (calls.map (fun x => x.now)).Pairwise (fun x y => x ≤ y) := by
    rw [List.pairwise_map]; exact h
  exact h2.sublist (admittedTimes_sublist c k calls rs)

/-- C1: sliding-window bound. Along any sequence of `checkRateLimit` calls with
a non-decreasing clock, started with no buckets, the admitted calls of one
client and class have at most `count` time stamps in any closed interval of
length `windowMs`; equivalently any `count + 1` of them span more than
`windowMs`. The (count, windowMs) pairs are (3, 60000), (10, 10000) and
(15, 30000). -/
theorem sliding_window_bound (clientId : String) (type : ActionClass) (calls : List Call)
    (hclock : ClockMonotone calls) :
    (RATE_LIMITS .questions = { count := 3, windowMs := 60000 } ∧
     RATE_LIMITS .upvotes = { count := 10, windowMs := 10000 } ∧
     RATE_LIMITS .teacher = { count := 15, windowMs := 30000 }) ∧
    (∀ a : Int,
      (admittedTimes clientId type calls (runCalls RateLimits.empty calls).2).countP
        (inWindow a (RATE_LIMITS type).windowMs) ≤ (RATE_LIMITS type).count) ∧
    (∀ ts : List Int,
      ts.Sublist (admittedTimes clientId type calls (runCalls RateLimits.empty calls).2) →
      ts.length = (RATE_LIMITS type).count + 1 →
      ∃ x ∈ ts, ∃ y ∈ ts, y - x > (RATE_LIMITS type).windowMs) := by
  have hwin : ∀ a : Int,
      (admittedTimes clientId type calls (runCalls RateLimits.empty calls).2).countP
        (inWindow a (RATE_LIMITS type).windowMs) ≤ (RATE_LIMITS type).count := by
    intro a
    have hcalls : ∀ call ∈ calls, (calls.head?.map (fun x => x.now)).getD 0 ≤ call.now := by
      intro call hcall
      cases calls with
      | nil => simp at hcall
      | cons c0 rest =>
        simp only [List.head?_cons, Option.map_some', Option.getD_some]
        rcases List.mem_cons.mp hcall with rfl | hmem
        · exact le_refl _
        · exact (List.pairwise_cons.mp hclock).1 call hmem
    have hempty : ([] : List Int) = [] ++ RateLimits.empty.bucket clientId type := by
      cases type <;> rfl
    have := window_bound_aux clientId type calls RateLimits.empty
      ((calls.head?.map (fun x => x.now)).getD 0) [] [] hempty
      (by simp) hcalls hclock (by simp) a
    simpa using this
  refine ⟨⟨rfl, rfl, rfl⟩, hwin, ?_⟩
  intro ts hsub hlen
  have hsorted := (admittedTimes_sorted clientId type calls _ hclock).sublist hsub
  cases ts with
  | nil => simp at hlen
  | cons first rest =>
    by_contra hspan
    simp only [not_exists, not_and, gt_iff_lt, not_lt] at hspan
    have hall : ∀ t ∈ first :: rest, inWindow first (RATE_LIMITS type).windowMs t = true := by
      intro t ht
      have hlo : first ≤ t := by
        rcases List.mem_cons.mp ht with rfl | hmem
        · exact le_refl _
        · exact (List.pairwise_cons.mp hsorted).1 t hmem
      have hhi := hspan first (List.mem_cons_self _ _) t ht
      simp only [inWindow, decide_eq_true_eq]
      constructor
      · exact hlo
      · omega
    have hcount : (first :: rest).countP (inWindow first (RATE_LIMITS type).windowMs)
        = (first :: rest).length := List.countP_eq_length.mpr hall
    have h1 := hsub.countP_le (inWindow first (RATE_LIMITS type).windowMs)
    have h2 := hwin first
    omega

/-- Witness of C1: six calls, four of them admitted for client `a`. -/
theorem sliding_window_bound_witness :
    ClockMonotone [⟨"a", .questions, 0⟩, ⟨"b", .upvotes, 5⟩, ⟨"a", .questions, 10⟩,
      ⟨"a", .questions, 20⟩, ⟨"a", .questions, 30⟩, ⟨"a", .questions, 60001⟩] ∧
    admittedTimes "a" .questions [⟨"a", .questions, 0⟩, ⟨"b", .upvotes, 5⟩, ⟨"a", .questions, 10⟩,
      ⟨"a", .questions, 20⟩, ⟨"a", .questions, 30⟩, ⟨"a", .questions, 60001⟩]
      (runCalls RateLimits.empty [⟨"a", .questions, 0⟩, ⟨"b", .upvotes, 5⟩, ⟨"a", .questions, 10⟩,
      ⟨"a", .questions, 20⟩, ⟨"a", .questions, 30⟩, ⟨"a", .questions, 60001⟩]).2 = [0, 10, 20, 60001] ∧
    ∃ x ∈ [0, 10, 20, 60001], ∃ y ∈ [0, 10, 20, 60001], y - x > (60000 : Int) := by
  refine ⟨by unfold ClockMonotone; decide, by decide, ?_⟩
  have h := (sliding_window_bound "a" .questions [⟨"a", .questions, 0⟩, ⟨"b", .upvotes, 5⟩,
    ⟨"a", .questions, 10⟩, ⟨"a", .questions, 20⟩, ⟨"a", .questions, 30⟩,
    ⟨"a", .questions, 60001⟩] (by unfold ClockMonotone; decide)).2.2 [0, 10, 20, 60001]
    (by decide) (by decide)
  exact h

theorem shiftExpired_sublist (now W : Int) (b : List Int) :
    (shiftExpired now W b).Sublist b := by
  induction b with
  | nil => exact List.Sublist.refl _
  | cons t rest ih =>
    simp only [shiftExpired]
    split
    · exact ih.cons _
    · exact List.Sublist.refl _

theorem shiftExpired_eq_filter (now W : Int) (b : List Int)
    (hsorted : b.Pairwise (fun x y => x ≤ y)) :
    shiftExpired now W b = b.filter (fun t => !decide (t < now - W)) := by
  induction b with
  | nil => rfl
  | cons t rest ih =>
    have hrest := (List.pairwise_cons.mp hsorted).2
    have hle := (List.pairwise_cons.mp hsorted).1
    by_cases h : now - t > W
    · have ht : t < now - W := by omega
      simp only [shiftExpired, if_pos h, List.filter_cons, ht, decide_True, Bool.not_true]
      simpa using ih hrest
    · have ht : ¬ t < now - W := by omega
      have hall : rest.filter (fun t => !decide (t < now - W)) = rest := by
        rw [List.filter_eq_self]
        intro u hu
        have := hle u hu
        have hu2 : ¬ u < now - W := by omega
        simp [hu2]
      simp [shiftExpired, h, List.filter_cons, ht, hall]

theorem foldl_min_eq_self (t : Int) (ts : List Int) (h : ∀ u ∈ ts, t ≤ u) :
    ts.foldl min t = t := by
  induction ts with
  | nil => rfl
  | cons u us ih =>
    have hu : t ≤ u := h u (List.mem_cons_self _ _)
    simp only [List.foldl_cons, min_eq_left hu]
    exact ih (fun v hv => h v (List.mem_cons_of_mem _ hv))

theorem min?_eq_head?_of_sorted (l : List Int) (h : l.Pairwise (fun x y => x ≤ y)) :
    l.min? = l.head? := by
  cases l with
  | nil => rfl
  | cons t ts =>
    rw [List.min?_cons', List.head?_cons, foldl_min_eq_self t ts (List.pairwise_cons.mp h).1]

theorem checkBucket_eq_ref (limit : Limit) (now : Int) (b : List Int)
    (hsorted : b.Pairwise (fun x y => x ≤ y)) :
    checkBucket limit now b = checkBucketRef limit now b := by
  have hf := shiftExpired_eq_filter now limit.windowMs b hsorted
  have hs : (shiftExpired now limit.windowMs b).Pairwise (fun x y => x ≤ y) :=
    hsorted.sublist (shiftExpired_sublist now limit.windowMs b)
  have hm := min?_eq_head?_of_sorted _ hs
  simp only [checkBucket, checkBucketRef]
  rw [← hf, hm]

theorem checkBucket_ok (limit : Limit) (now T : Int) (b : List Int)
    (h : BucketOk limit b T) (hT : T ≤ now) :
    BucketOk limit (checkBucket limit now b).1 now := by
  obtain ⟨hsorted, hle, hlen⟩ := h
  have hsub := shiftExpired_sublist now limit.windowMs b
  have hs := hsorted.sublist hsub
  have hmem : ∀ t ∈ shiftExpired now limit.windowMs b, t ≤ now :=
    fun t ht => le_trans (hle t (hsub.subset ht)) hT
  by_cases hfull : (shiftExpired now limit.windowMs b).length ≥ limit.count
  · simp only [checkBucket, if_pos hfull]
    exact ⟨hs, hmem, le_trans hsub.length_le hlen⟩
  · simp only [checkBucket, if_neg hfull]
    refine ⟨?_, ?_, ?_⟩
    · rw [List.pairwise_append]
      refine ⟨hs, List.pairwise_singleton _ _, ?_⟩
      intro x hx y hy
      rw [List.mem_singleton] at hy
      rw [hy]
      exact hmem x hx
    · intro t ht
      rcases List.mem_append.mp ht with ht | ht
      · exact hmem t ht
      · rw [List.mem_singleton] at ht
        rw [ht]
    · simp only [List.length_append, List.length_singleton]
      omega

theorem BucketOk.mono {limit : Limit} {b : List Int} {T now : Int}
    (h : BucketOk limit b T) (hT : T ≤ now) : BucketOk limit b now :=
  ⟨h.1, fun t ht => le_trans (h.2.1 t ht) hT, h.2.2⟩

theorem runCalls_bucket_ok (c : String) (k : ActionClass) (calls : List Call) :
    ∀ (rl : RateLimits) (T now : Int),
      BucketOk (RATE_LIMITS k) (rl.bucket c k) T →
      (∀ call ∈ calls, T ≤ call.now) →
      ClockMonotone calls →
      (∀ call ∈ calls, call.now ≤ now) → T ≤ now →
      BucketOk (RATE_LIMITS k) ((runCalls rl calls).1.bucket c k) now := by
  induction calls with
  | nil =>
    intro rl T now h _ _ _ hT
    exact h.mono hT
  | cons call rest ih =>
    intro rl T now h hlo hmono hhi hT
    have hTnow : T ≤ call.now := hlo call (List.mem_cons_self _ _)
    have hmono2 : ClockMonotone rest := (List.pairwise_cons.mp hmono).2
    have hrest : ∀ c2 ∈ rest, call.now ≤ c2.now := (List.pairwise_cons.mp hmono).1
    have hnow : call.now ≤ now := hhi call (List.mem_cons_self _ _)
    have hhi2 : ∀ c2 ∈ rest, c2.now ≤ now := fun c2 h2 => hhi c2 (List.mem_cons_of_mem _ h2)
    simp only [runCalls]
    refine ih _ call.now now ?_ hrest hmono2 hhi2 hnow
    by_cases hck : call.clientId = c ∧ call.type = k ∧ rl.throwsFor c = false
    · obtain ⟨hc, hk, hthrow⟩ := hck
      rw [hc, hk, checkRateLimit_bucket_same _ _ _ _ hthrow]
      exact checkBucket_ok _ _ _ _ h hTnow
    · rw [checkRateLimit_bucket_unchanged rl call.clientId call.type call.now c k hck]
      exact h.mono hTnow

theorem BucketOk_empty (c : String) (k : ActionClass) (T : Int) :
    BucketOk (RATE_LIMITS k) (RateLimits.empty.bucket c k) T := by
  have : RateLimits.empty.bucket c k = [] := by cases k <;> rfl
  rw [this]
  exact ⟨List.Pairwise.nil, by simp, Nat.zero_le _⟩

/-- C9: `checkRateLimit` equals its reference definition on every bucket built
by earlier checks under a non-decreasing clock: the front-only loop leaves
exactly the time stamps `t` with `now - t <= windowMs`, and the new buckets and
the returned object are those of the reference (deny with
`ceil((windowMs - (now - oldest)) / 1000)` and append nothing when the retained
count reaches `count`, otherwise admit and append `now` last). For a client id
that is the name of an inherited property no bucket is ever built: the entry is
missing and the call throws. -/
theorem checkRateLimit_eq_ref (calls : List Call) (clientId : String) (type : ActionClass)
    (now : Int) (hclock : ClockMonotone calls) (hnow : ∀ call ∈ calls, call.now ≤ now) :
    shiftExpired now (RATE_LIMITS type).windowMs
        ((runCalls RateLimits.empty calls).1.bucket clientId type) =
      ((runCalls RateLimits.empty calls).1.bucket clientId type).filter
        (fun t => decide (now - t ≤ (RATE_LIMITS type).windowMs)) ∧
    (clientId ∉ objectPrototypeNames →
      checkRateLimit (runCalls RateLimits.empty calls).1 clientId type now =
        ((checkRateLimitRef (runCalls RateLimits.empty calls).1 clientId type now).1,
         some (checkRateLimitRef (runCalls RateLimits.empty calls).1 clientId type now).2)) ∧
    (clientId ∈ objectPrototypeNames →
      (runCalls RateLimits.empty calls).1 clientId = none ∧
      checkRateLimit (runCalls RateLimits.empty calls).1 clientId type now =
        ((runCalls RateLimits.empty calls).1, none)) := by
  have hlo : ∀ call ∈ calls, (calls.head?.map (fun x => x.now)).getD now ≤ call.now := by
    intro call hcall
    cases calls with
    | nil => simp at hcall
    | cons c0 rest =>
      simp only [List.head?_cons, Option.map_some', Option.getD_some]
      rcases List.mem_cons.mp hcall with rfl | hmem
      · exact le_refl _
      · exact (List.pairwise_cons.mp hclock).1 call hmem
  have hT : (calls.head?.map (fun x => x.now)).getD now ≤ now := by
    cases calls with
    | nil => simp
    | cons c0 rest => simpa using hnow c0 (List.mem_cons_self _ _)
  have hok := runCalls_bucket_ok clientId type calls RateLimits.empty _ now
    (BucketOk_empty clientId type _) hlo hclock hnow hT
  have hthrows := runCalls_throwsFor clientId calls RateLimits.empty
  refine ⟨?_, ?_, ?_⟩
  · rw [shiftExpired_eq_filter _ _ _ hok.1]
    apply List.filter_congr
    intro t _
    by_cases h : t < now - (RATE_LIMITS type).windowMs
    · have : ¬ now - t ≤ (RATE_LIMITS type).windowMs := by omega
      simp [h, this]
    · have : now - t ≤ (RATE_LIMITS type).windowMs := by omega
      simp [h, this]
  · intro hname
    have ht : (runCalls RateLimits.empty calls).1.throwsFor clientId = false := by
      rw [hthrows]
      simp [RateLimits.throwsFor, hname]
    unfold checkRateLimit checkRateLimitRef
    rw [if_neg (by simp [ht])]
    have := checkBucket_eq_ref (RATE_LIMITS type) now _ hok.1
    simp only [RateLimits.bucket] at this
    simp only [this]
  · intro hname
    have ht : (runCalls RateLimits.empty calls).1.throwsFor clientId = true := by
      rw [hthrows]
      simp [RateLimits.throwsFor, RateLimits.empty, hname]
    constructor
    · have h2 := ht
      simp only [RateLimits.throwsFor, Bool.and_eq_true, Option.isNone_iff_eq_none] at h2
      exact h2.1
    · exact checkRateLimit_throws _ _ _ _ ht

/-- Witness of C9: two admitted calls, then a check after the first has expired. -/
theorem checkRateLimit_eq_ref_witness :
    ClockMonotone [⟨"a", .questions, 0⟩, ⟨"a", .questions, 10⟩] ∧
    (∀ call ∈ [(⟨"a", .questions, 0⟩ : Call), ⟨"a", .questions, 10⟩], call.now ≤ 60005) ∧
    "a" ∉ objectPrototypeNames ∧
    (checkRateLimitRef (runCalls RateLimits.empty
        [⟨"a", .questions, 0⟩, ⟨"a", .questions, 10⟩]).1 "a" .questions 60005).1.bucket
      "a" .questions = [10, 60005] ∧
    checkRateLimit (runCalls RateLimits.empty
        [⟨"a", .questions, 0⟩, ⟨"a", .questions, 10⟩]).1 "a" .questions 60005 =
      ((checkRateLimitRef (runCalls RateLimits.empty
        [⟨"a", .questions, 0⟩, ⟨"a", .questions, 10⟩]).1 "a" .questions 60005).1,
       some (checkRateLimitRef (runCalls RateLimits.empty
        [⟨"a", .questions, 0⟩, ⟨"a", .questions, 10⟩]).1 "a" .questions 60005).2) :=
  ⟨by unfold ClockMonotone; decide, by decide, by decide, by decide,
   (checkRateLimit_eq_ref [⟨"a", .questions, 0⟩, ⟨"a", .questions, 10⟩] "a" .questions 60005
      (by unfold ClockMonotone; decide) (by decide)).2.1 (by decide)⟩

/-- On a denial the reported wait is `ceil` of the time until the oldest kept
time stamp is exactly `windowMs` old; it is never negative, and it is zero
exactly when that time stamp is `windowMs` old already. -/
theorem checkBucket_denied_wait (limit : Limit) (now : Int) (b : List Int)
    (hden : (checkBucket limit now b).2.allowed = false) (hcount : 0 < limit.count) :
    ∃ t0 rest, shiftExpired now limit.windowMs b = t0 :: rest ∧
      now - t0 ≤ limit.windowMs ∧
      (checkBucket limit now b).2.waitSeconds
        = some (ceilDiv1000 (limit.windowMs - (now - t0))) ∧
      0 ≤ ceilDiv1000 (limit.windowMs - (now - t0)) ∧
      (ceilDiv1000 (limit.windowMs - (now - t0)) = 0 ↔ now - t0 = limit.windowMs) := by
  by_cases hfull : (shiftExpired now limit.windowMs b).length ≥ limit.count
  · cases hk : shiftExpired now limit.windowMs b with
    | nil => rw [hk] at hfull; simp at hfull; omega
    | cons t0 rest =>
      have hhead : now - t0 ≤ limit.windowMs := by
        have : ∀ l : List Int, ∀ t0 rest, shiftExpired now limit.windowMs l = t0 :: rest →
            now - t0 ≤ limit.windowMs := by
          intro l
          induction l with
          | nil => intro t0 rest h; simp [shiftExpired] at h
          | cons u us ih =>
            intro t0 rest h
            simp only [shiftExpired] at h
            split at h
            · exact ih t0 rest h
            · rename_i hnot
              have := (List.cons.inj h).1
              omega
        exact this b t0 rest hk
      refine ⟨t0, rest, rfl, hhead, ?_, ?_, ?_⟩
      · have hfull2 : limit.count ≤ rest.length + 1 := by
          rw [hk] at hfull
          simpa using hfull
        simp [checkBucket, hk, hfull2]
      · unfold ceilDiv1000; omega
      · unfold ceilDiv1000; omega
  · simp [checkBucket, hfull] at hden

/-- C7: evaluation at the failing input. Three creations are admitted at
1700000001000, 1700000002000 and 1700000003000; the check at 1700000061000,
when the oldest time stamp is exactly `windowMs` old, keeps it (the loop drops
only what is strictly older) and denies with `waitSeconds = 0`. -/
theorem denied_with_zero_wait :
    (runCalls RateLimits.empty
      [⟨"s1", .questions, 1700000001000⟩, ⟨"s1", .questions, 1700000002000⟩,
       ⟨"s1", .questions, 1700000003000⟩, ⟨"s1", .questions, 1700000061000⟩]).2
      = [some ⟨true, none⟩, some ⟨true, none⟩, some ⟨true, none⟩, some ⟨false, some 0⟩] := by
  decide

/-- C8: evaluation at the failing input. A fresh client sends four creations
one second apart; the fourth is denied with `waitSeconds = 57`; the check made
exactly 57 seconds after the fourth is denied again, and the fifth question is
not inserted. -/
theorem denied_again_after_wait :
    (runCalls RateLimits.empty
      [⟨"s1", .questions, 1700000000000⟩, ⟨"s1", .questions, 1700000001000⟩,
       ⟨"s1", .questions, 1700000002000⟩, ⟨"s1", .questions, 1700000003000⟩,
       ⟨"s1", .questions, 1700000003000 + 1000 * 57⟩]).2
      = [some ⟨true, none⟩, some ⟨true, none⟩, some ⟨true, none⟩, some ⟨false, some 57⟩,
         some ⟨false, some 0⟩] ∧
    ((run State.init
      [⟨⟨"student", "s1"⟩, 1700000000000, .create "q1" 1700000000000 "a1b2" 1700000000000⟩,
       ⟨⟨"student", "s1"⟩, 1700000001000, .create "q2" 1700000001000 "c3d4" 1700000001000⟩,
       ⟨⟨"student", "s1"⟩, 1700000002000, .create "q3" 1700000002000 "e5f6" 1700000002000⟩,
       ⟨⟨"student", "s1"⟩, 1700000003000, .create "q4" 1700000003000 "g7h8" 1700000003000⟩,
       ⟨⟨"student", "s1"⟩, 1700000003000 + 1000 * 57,
          .create "q5" 1700000060000 "i9j0" 1700000060000⟩]).questions.map (fun q => q.text))
      = ["q1", "q2", "q3"] := by
  decide

/-! ## Question store: what one message does -/

theorem modifyFirst_split (p : Question → Bool) (f : Question → Question) :
    ∀ (qs : List Question) (q : Question), qs.find? p = some q →
      ∃ l1 l2, qs = l1 ++ q :: l2 ∧ (∀ u ∈ l1, p u = false) ∧ p q = true ∧
        modifyFirst p f qs = l1 ++ f q :: l2 := by
  intro qs
  induction qs with
  | nil => intro q h; simp at h
  | cons a rest ih =>
    intro q h
    by_cases hp : p a = true
    · have hq : a = q := by simpa [List.find?_cons, hp] using h
      subst hq
      exact ⟨[], rest, rfl, by simp, hp, by simp [modifyFirst, hp]⟩
    · have hp2 : p a = false := by simpa using hp
      have h2 : rest.find? p = some q := by simpa [List.find?_cons, hp2] using h
      obtain ⟨l1, l2, hsplit, hfirst, hpq, hmod⟩ := ih q h2
      refine ⟨a :: l1, l2, by rw [hsplit]; rfl, ?_, hpq, ?_⟩
      · intro u hu
        rcases List.mem_cons.mp hu with rfl | hu
        · exact hp2
        · exact hfirst u hu
      · simp [modifyFirst, hp2, hmod]

theorem findIdx?_split (p : Question → Bool) :
    ∀ (qs : List Question) (start i : Nat), qs.findIdx? p start = some i →
      ∃ l1 q l2, qs = l1 ++ q :: l2 ∧ (∀ u ∈ l1, p u = false) ∧ p q = true ∧
        i = start + l1.length := by
  intro qs
  induction qs with
  | nil => intro start i h; simp [List.findIdx?] at h
  | cons a rest ih =>
    intro start i h
    by_cases hp : p a = true
    · have hi : start = i := by simpa [List.findIdx?, hp] using h
      exact ⟨[], a, rest, rfl, by simp, hp, by simp [hi]⟩
    · have hp2 : p a = false := by simpa using hp
      have h2 : rest.findIdx? p (start + 1) = some i := by
        simpa [List.findIdx?, hp2] using h
      obtain ⟨l1, q, l2, hsplit, hfirst, hpq, hi⟩ := ih (start + 1) i h2
      refine ⟨a :: l1, q, l2, by rw [hsplit]; rfl, ?_, hpq, ?_⟩
      · intro u hu
        rcases List.mem_cons.mp hu with rfl | hu
        · exact hp2
        · exact hfirst u hu
      · simp only [List.length_cons]; omega

theorem eraseIdx_split (l1 : List Question) (q : Question) (l2 : List Question) :
    (l1 ++ q :: l2).eraseIdx l1.length = l1 ++ l2 := by
  induction l1 with
  | nil => rfl
  | cons a l ih => simp [List.eraseIdx, ih]

theorem questionCreate_step (s : State) (conn : Conn) (now : Int) (text : String)
    (idNow : Int) (rand : String) (createdAt : Int) :
    QuestionsStep conn (.create text idNow rand createdAt) s.questions
      (questionCreate s conn now text idNow rand createdAt).questions := by
  unfold questionCreate
  simp only []
  split
  · exact QuestionsStep.unchanged _ _
  · split
    · exact QuestionsStep.unchanged _ _
    · split
      · exact QuestionsStep.unchanged _ _
      · rename_i hne
        split
        · exact QuestionsStep.unchanged _ _
        · rename_i hlen
          have hne2 : jsTrim text ≠ "" := by
            intro h
            apply hne
            simp [h]
          exact QuestionsStep.created text idNow rand createdAt s.questions hne2 (by omega)

theorem questionUpvote_step (s : State) (conn : Conn) (now : Int) (id : String) :
    QuestionsStep conn (.upvote id) s.questions (questionUpvote s conn now id).questions := by
  unfold questionUpvote
  simp only []
  split
  · exact QuestionsStep.unchanged _ _
  · split
    · exact QuestionsStep.unchanged _ _
    · split
      · exact QuestionsStep.unchanged _ _
      · rename_i q hfind
        split
        · exact QuestionsStep.unchanged _ _
        · rename_i hnew
          obtain ⟨l1, l2, hsplit, hfirst, hpq, hmod⟩ := modifyFirst_split (fun q => decide (q.id = id))
            (fun q => { q with voters := q.voters ++ [conn.clientId], votes := q.votes + 1 })
            s.questions q hfind
          simp only [hmod]
          have := @QuestionsStep.upvoted conn id l1 q l2 (by simpa using hpq)
            (fun u hu => by simpa using hfirst u hu) (by simpa using hnew)
          rw [← hsplit] at this
          exact this

theorem questionAnswer_step (s : State) (conn : Conn) (now : Int) (id : String) :
    QuestionsStep conn (.answer id) s.questions (questionAnswer s conn now id).questions := by
  unfold questionAnswer
  simp only []
  split
  · exact QuestionsStep.unchanged _ _
  · rename_i hrole
    split
    · exact QuestionsStep.unchanged _ _
    · split
      · exact QuestionsStep.unchanged _ _
      · split
        · exact QuestionsStep.unchanged _ _
        · rename_i q hfind
          obtain ⟨l1, l2, hsplit, hfirst, hpq, hmod⟩ := modifyFirst_split (fun q => decide (q.id = id))
            (fun q => { q with answered := !q.answered }) s.questions q hfind
          simp only [hmod]
          have := @QuestionsStep.answered conn id l1 q l2 (by simpa using hpq)
            (fun u hu => by simpa using hfirst u hu) (by simpa using hrole)
          rw [← hsplit] at this
          exact this

theorem questionPin_step (s : State) (conn : Conn) (now : Int) (id : String) :
    QuestionsStep conn (.pin id) s.questions (questionPin s conn now id).questions := by
  unfold questionPin
  simp only []
  split
  · exact QuestionsStep.unchanged _ _
  · rename_i hrole
    split
    · exact QuestionsStep.unchanged _ _
    · split
      · exact QuestionsStep.unchanged _ _
      · split
        · exact QuestionsStep.unchanged _ _
        · rename_i q hfind
          obtain ⟨l1, l2, hsplit, hfirst, hpq, hmod⟩ := modifyFirst_split (fun q => decide (q.id = id))
            (fun q => { q with pinned := !q.pinned }) s.questions q hfind
          simp only [hmod]
          have := @QuestionsStep.pinned conn id l1 q l2 (by simpa using hpq)
            (fun u hu => by simpa using hfirst u hu) (by simpa using hrole)
          rw [← hsplit] at this
          exact this

theorem questionDelete_step (s : State) (conn : Conn) (now : Int) (id : String) :
    QuestionsStep conn (.delete id) s.questions (questionDelete s conn now id).questions := by
  unfold questionDelete
  simp only []
  split
  · exact QuestionsStep.unchanged _ _
  · rename_i hrole
    split
    · exact QuestionsStep.unchanged _ _
    · split
      · exact QuestionsStep.unchanged _ _
      · split
        · exact QuestionsStep.unchanged _ _
        · rename_i index hfind
          obtain ⟨l1, q, l2, hsplit, hfirst, hpq, hi⟩ :=
            findIdx?_split (fun q => decide (q.id = id)) s.questions 0 index hfind
          have := @QuestionsStep.deleted conn id l1 q l2 (by simpa using hpq)
            (fun u hu => by simpa using hfirst u hu) (by simpa using hrole)
          have hi2 : index = l1.length := by omega
          simp only [hi2]
          rw [hsplit, eraseIdx_split]
          exact this

theorem step_questionsStep (s : State) (e : Event) :
    QuestionsStep e.conn e.msg s.questions (step s e).questions := by
  unfold step
  cases h : e.msg with
  | create text idNow rand createdAt => exact questionCreate_step s e.conn e.now text idNow rand createdAt
  | upvote id => exact questionUpvote_step s e.conn e.now id
  | answer id => exact questionAnswer_step s e.conn e.now id
  | pin id => exact questionPin_step s e.conn e.now id
  | delete id => exact questionDelete_step s e.conn e.now id
  | disconnect => exact QuestionsStep.unchanged _ _

/-! ## Question store: the sort order -/

theorem questionLe_iff_sortedBefore (a b : Question) : questionLe a b ↔ sortedBefore a b := by
  unfold questionLe compareQuestions sortedBefore boolNum
  cases a.pinned <;> cases b.pinned <;> cases a.answered <;> cases b.answered <;>
    simp <;> (split_ifs <;> omega)

theorem questionLe_total (a b : Question) : questionLe a b ∨ questionLe b a := by
  rw [questionLe_iff_sortedBefore, questionLe_iff_sortedBefore]
  unfold sortedBefore
  cases a.pinned <;> cases b.pinned <;> cases a.answered <;> cases b.answered <;>
    simp <;> omega

theorem questionLe_trans (a b c : Question) (h1 : questionLe a b) (h2 : questionLe b c) :
    questionLe a c := by
  rw [questionLe_iff_sortedBefore] at *
  unfold sortedBefore at *
  obtain ⟨_, _, av, _, ap, aa, ac⟩ := a
  obtain ⟨_, _, bv, _, bp, ba, bc⟩ := b
  obtain ⟨_, _, cv, _, cp, ca, cc⟩ := c
  cases ap <;> cases bp <;> cases cp <;> cases aa <;> cases ba <;> cases ca <;>
    simp at h1 h2 ⊢ <;> omega

theorem sortQuestions_sorted (qs : List Question) : (sortQuestions qs).Pairwise questionLe :=
  @List.sorted_insertionSort Question questionLe _ ⟨questionLe_total⟩ ⟨questionLe_trans⟩ qs

theorem sortQuestions_perm (qs : List Question) : (sortQuestions qs).Perm qs :=
  List.perm_insertionSort questionLe qs

/-! ## Question store: invariants of reachable states -/

theorem run_cons (s : State) (e : Event) (es : List Event) :
    run s (e :: es) = run (step s e) es := rfl

theorem QuestionsStep.sorted {conn : Conn} {msg : Msg} {qs qs2 : List Question}
    (h : QuestionsStep conn msg qs qs2) (hs : qs.Pairwise questionLe) :
    qs2.Pairwise questionLe := by
  cases h with
  | unchanged => exact hs
  | created => exact sortQuestions_sorted _
  | upvoted => exact sortQuestions_sorted _
  | answered => exact sortQuestions_sorted _
  | pinned => exact sortQuestions_sorted _
  | deleted id l1 q l2 =>
    exact hs.sublist (List.Sublist.append_left (List.sublist_cons_self q l2) l1)

theorem run_sorted (es : List Event) :
    ∀ s : State, s.questions.Pairwise questionLe → (run s es).questions.Pairwise questionLe := by
  induction es with
  | nil => intro s h; exact h
  | cons e es ih =>
    intro s h
    rw [run_cons]
    exact ih _ ((step_questionsStep s e).sorted h)

/-- C4: sort invariant. In every state reachable from the empty collection the
array `questions` is sorted by (pinned desc, answered asc, votes desc,
createdAt asc): for every pair of positions, and so for every adjacent pair,
the comparator of `sortQuestions` is not positive on (earlier, later); every
pinned question precedes every unpinned one, and among pinned questions every
unanswered one precedes every answered one. -/
theorem sort_invariant (es : List Event) :
    (run State.init es).questions.Pairwise (fun a b =>
      compareQuestions a b ≤ 0 ∧ sortedBefore a b ∧
      (b.pinned = true → a.pinned = true) ∧
      (a.pinned = true → b.pinned = true → a.answered = true → b.answered = true)) := by
  have h := run_sorted es State.init List.Pairwise.nil
  refine h.imp ?_
  intro a b hab
  have hsb := (questionLe_iff_sortedBefore a b).mp hab
  refine ⟨hab, hsb, ?_, ?_⟩
  · intro hb
    unfold sortedBefore at hsb
    rcases hsb with ⟨h1, _⟩ | ⟨h1, _⟩
    · exact h1
    · rw [h1]; exact hb
  · intro ha hb haa
    unfold sortedBefore at hsb
    rcases hsb with ⟨_, h2⟩ | ⟨_, h2⟩
    · rw [hb] at h2; exact absurd h2 (by decide)
    · rcases h2 with ⟨h3, _⟩ | ⟨h3, _⟩
      · rw [haa] at h3; exact absurd h3 (by decide)
      · rw [← h3]; exact haa

theorem QuestionsStep.votes_voters {conn : Conn} {msg : Msg} {qs qs2 : List Question}
    (h : QuestionsStep conn msg qs qs2)
    (hinv : ∀ q ∈ qs, q.votes = q.voters.length ∧ q.voters.Nodup) :
    ∀ q ∈ qs2, q.votes = q.voters.length ∧ q.voters.Nodup := by
  cases h with
  | unchanged => exact hinv
  | created text idNow rand createdAt =>
    intro q hq
    have hq2 := (sortQuestions_perm _).subset hq
    rcases List.mem_append.mp hq2 with hq3 | hq3
    · exact hinv q hq3
    · rw [List.mem_singleton] at hq3
      subst hq3
      exact ⟨rfl, List.nodup_nil⟩
  | upvoted id l1 q0 l2 hid hfirst hnew =>
    intro q hq
    have hq2 := (sortQuestions_perm _).subset hq
    rcases List.mem_append.mp hq2 with hq3 | hq3
    · exact hinv q (List.mem_append_left _ hq3)
    · rcases List.mem_cons.mp hq3 with hq4 | hq4
      · subst hq4
        have h0 := hinv q0 (List.mem_append_right _ (List.mem_cons_self _ _))
        refine ⟨by simp [h0.1], ?_⟩
        simp only
        rw [List.nodup_append]
        refine ⟨h0.2, List.nodup_singleton _, ?_⟩
        intro x hx1 hx2
        rw [List.mem_singleton] at hx2
        subst hx2
        exact hnew hx1
      · exact hinv q (List.mem_append_right _ (List.mem_cons_of_mem _ hq4))
  | answered id l1 q0 l2 =>
    intro q hq
    have hq2 := (sortQuestions_perm _).subset hq
    rcases List.mem_append.mp hq2 with hq3 | hq3
    · exact hinv q (List.mem_append_left _ hq3)
    · rcases List.mem_cons.mp hq3 with hq4 | hq4
      · subst hq4
        exact hinv q0 (List.mem_append_right _ (List.mem_cons_self _ _))
      · exact hinv q (List.mem_append_right _ (List.mem_cons_of_mem _ hq4))
  | pinned id l1 q0 l2 =>
    intro q hq
    have hq2 := (sortQuestions_perm _).subset hq
    rcases List.mem_append.mp hq2 with hq3 | hq3
    · exact hinv q (List.mem_append_left _ hq3)
    · rcases List.mem_cons.mp hq3 with hq4 | hq4
      · subst hq4
        exact hinv q0 (List.mem_append_right _ (List.mem_cons_self _ _))
      · exact hinv q (List.mem_append_right _ (List.mem_cons_of_mem _ hq4))
  | deleted id l1 q0 l2 =>
    intro q hq
    rcases List.mem_append.mp hq with hq3 | hq3
    · exact hinv q (List.mem_append_left _ hq3)
    · exact hinv q (List.mem_append_right _ (List.mem_cons_of_mem _ hq3))

theorem run_votes_voters (es : List Event) :
    ∀ s : State, (∀ q ∈ s.questions, q.votes = q.voters.length ∧ q.voters.Nodup) →
      ∀ q ∈ (run s es).questions, q.votes = q.voters.length ∧ q.voters.Nodup := by
  induction es with
  | nil => intro s h; exact h
  | cons e es ih =>
    intro s h
    rw [run_cons]
    exact ih _ ((step_questionsStep s e).votes_voters h)

/-- C3: vote/voter consistency. In every state reachable from the empty
collection by any sequence of messages, every question has `votes` equal to the
size of its `voters` set (the voters list has no duplicates). -/
theorem votes_eq_voters (es : List Event) :
    ∀ q ∈ (run State.init es).questions,
      q.voters.Nodup ∧ q.votes = q.voters.length ∧ q.votes = q.voters.toFinset.card := by
  intro q hq
  have h := run_votes_voters es State.init (by intro q hq; simp [State.init] at hq) q hq
  exact ⟨h.2, h.1, by rw [List.toFinset_card_of_nodup h.2]; exact h.1⟩

/-! ## Question store: creation and the role gate -/

/-- Witness of C3: the question of the scenario after two upvotes by one client. -/
theorem votes_eq_voters_witness :
    (⟨"1700000000000k3f9", "What is a B-tree?", 1, ["B"], false, false, 1700000000001⟩ : Question)
      ∈ (run State.init
        [⟨⟨"student", "A"⟩, 1700000000000,
            .create "What is a B-tree?" 1700000000000 "k3f9" 1700000000001⟩,
         ⟨⟨"student", "B"⟩, 1700000005000, .upvote "1700000000000k3f9"⟩,
         ⟨⟨"student", "B"⟩, 1700000006000, .upvote "1700000000000k3f9"⟩]).questions ∧
    (["B"] : List String).Nodup ∧ 1 = (["B"] : List String).length ∧
      1 = (["B"] : List String).toFinset.card :=
  ⟨by decide,
   votes_eq_voters
    [⟨⟨"student", "A"⟩, 1700000000000,
        .create "What is a B-tree?" 1700000000000 "k3f9" 1700000000001⟩,
     ⟨⟨"student", "B"⟩, 1700000005000, .upvote "1700000000000k3f9"⟩,
     ⟨⟨"student", "B"⟩, 1700000006000, .upvote "1700000000000k3f9"⟩]
    ⟨"1700000000000k3f9", "What is a B-tree?", 1, ["B"], false, false, 1700000000001⟩
    (by decide)⟩

theorem jsTrim_sublist (s : String) : (jsTrim s).data.Sublist s.data := by
  unfold jsTrim
  simp only
  have h1 : ((s.data.dropWhile isJsWhiteSpace).reverse.dropWhile isJsWhiteSpace).Sublist
      (s.data.dropWhile isJsWhiteSpace).reverse := List.dropWhile_sublist _
  have h2 := h1.reverse
  rw [List.reverse_reverse] at h2
  exact h2.trans (List.dropWhile_sublist _)

theorem jsLength_le_of_sublist {l1 l2 : List Char} (h : l1.Sublist l2) :
    (l1.map (fun c => if c.toNat < 0x10000 then 1 else 2)).sum ≤
      (l2.map (fun c => if c.toNat < 0x10000 then 1 else 2)).sum := by
  induction h with
  | slnil => exact le_refl _
  | cons a _ ih => simp only [List.map_cons, List.sum_cons]; omega
  | cons₂ a _ ih => simp only [List.map_cons, List.sum_cons]; omega

theorem jsLength_jsTrim_le (s : String) : jsLength (jsTrim s) ≤ jsLength s :=
  jsLength_le_of_sublist (jsTrim_sublist s)

theorem length_le_jsLength_aux (l : List Char) :
    l.length ≤ (l.map (fun c => if c.toNat < 0x10000 then 1 else 2)).sum := by
  induction l with
  | nil => simp
  | cons c cs ih =>
    simp only [List.length_cons, List.map_cons, List.sum_cons]
    split <;> omega

theorem length_le_jsLength (s : String) : s.length ≤ jsLength s :=
  length_le_jsLength_aux s.data

theorem jsLength_pos (s : String) (h : s ≠ "") : 0 < jsLength s := by
  unfold jsLength
  cases hd : s.data with
  | nil =>
    exfalso
    apply h
    have : s = String.mk s.data := rfl
    rw [this, hd]
  | cons c cs =>
    simp only [List.map_cons, List.sum_cons]
    split <;> omega

/-- C5: create validation soundness. If `question:create` inserts a question,
its stored text is the trimmed input and its length is positive and at most
300 (in UTF-16 code units, hence also in code points); and a text whose trimmed
form is empty or longer than 300 leaves the collection unchanged. -/
theorem create_validation (s : State) (conn : Conn) (now : Int) (text : String)
    (idNow : Int) (rand : String) (createdAt : Int) :
    ((questionCreate s conn now text idNow rand createdAt).questions ≠ s.questions →
      ∃ q : Question,
        (questionCreate s conn now text idNow rand createdAt).questions
          = sortQuestions (s.questions ++ [q]) ∧
        q.text = jsTrim text ∧ 0 < jsLength q.text ∧ jsLength q.text ≤ 300 ∧
        0 < q.text.length ∧ q.text.length ≤ 300) ∧
    ((jsTrim text = "" ∨ jsLength (jsTrim text) > 300 ∨ (jsTrim text).length > 300) →
      (questionCreate s conn now text idNow rand createdAt).questions = s.questions) := by
  constructor
  · intro hne
    have hstep := questionCreate_step s conn now text idNow rand createdAt
    generalize hq2 : (questionCreate s conn now text idNow rand createdAt).questions = qs2 at *
    cases hstep with
    | unchanged => exact absurd rfl hne
    | created _ _ _ _ _ hnonempty hlen =>
      refine ⟨newQuestion text idNow rand createdAt, rfl, rfl, ?_, ?_, ?_, ?_⟩
      · exact jsLength_pos _ hnonempty
      · exact le_trans (jsLength_jsTrim_le text) hlen
      · have : (jsTrim text).data ≠ [] := by
          intro h
          apply hnonempty
          have h2 : jsTrim text = String.mk (jsTrim text).data := rfl
          rw [h2, h]
        show 0 < (jsTrim text).data.length
        exact List.length_pos.mpr this
      · exact le_trans (length_le_jsLength _) (le_trans (jsLength_jsTrim_le text) hlen)
  · intro hbad
    unfold questionCreate
    simp only []
    split
    · rfl
    · split
      · rfl
      · split
        · rfl
        · rename_i hne
          split
          · rfl
          · rename_i hlen
            exfalso
            have h1 := jsLength_jsTrim_le text
            have h2 := length_le_jsLength (jsTrim text)
            rcases hbad with h | h | h
            · apply hne; simp [h]
            · omega
            · omega

/-- C6: role gate. On a connection whose role is not `teacher`, the handlers of
`question:answer`, `question:pin` and `question:delete` leave the collection
(and the rate buckets) unchanged. -/
theorem role_gate (s : State) (conn : Conn) (now : Int) (id : String)
    (hrole : conn.role ≠ "teacher") :
    (questionAnswer s conn now id).questions = s.questions ∧
    (questionPin s conn now id).questions = s.questions ∧
    (questionDelete s conn now id).questions = s.questions ∧
    questionAnswer s conn now id = s ∧ questionPin s conn now id = s ∧
    questionDelete s conn now id = s := by
  have h1 : questionAnswer s conn now id = s := by unfold questionAnswer; rw [if_pos hrole]
  have h2 : questionPin s conn now id = s := by unfold questionPin; rw [if_pos hrole]
  have h3 : questionDelete s conn now id = s := by unfold questionDelete; rw [if_pos hrole]
  exact ⟨by rw [h1], by rw [h2], by rw [h3], h1, h2, h3⟩


/-- Witness of C5: one accepted text and one whitespace-only text. -/
theorem create_validation_witness :
    ((questionCreate State.init ⟨"student", "A"⟩ 1700000000000 "  What is a B-tree? "
        1700000000000 "k3f9" 1700000000001).questions ≠ State.init.questions ∧
      ∃ q : Question,
        (questionCreate State.init ⟨"student", "A"⟩ 1700000000000 "  What is a B-tree? "
          1700000000000 "k3f9" 1700000000001).questions
          = sortQuestions (State.init.questions ++ [q]) ∧
        q.text = jsTrim "  What is a B-tree? " ∧ 0 < jsLength q.text ∧ jsLength q.text ≤ 300 ∧
        0 < q.text.length ∧ q.text.length ≤ 300) ∧
    ((jsTrim " \t\n" = "" ∨ jsLength (jsTrim " \t\n") > 300 ∨ (jsTrim " \t\n").length > 300) ∧
      (questionCreate State.init ⟨"student", "A"⟩ 1700000000000 " \t\n"
        1700000000000 "k3f9" 1700000000001).questions = State.init.questions) :=
  ⟨⟨by decide,
    (create_validation State.init ⟨"student", "A"⟩ 1700000000000 "  What is a B-tree? "
      1700000000000 "k3f9" 1700000000001).1 (by decide)⟩,
   ⟨Or.inl (by decide),
    (create_validation State.init ⟨"student", "A"⟩ 1700000000000 " \t\n"
      1700000000000 "k3f9" 1700000000001).2 (Or.inl (by decide))⟩⟩

/-- Witness of C6: a student tries to delete the only question. -/
theorem role_gate_witness :
    (⟨"student", "B"⟩ : Conn).role ≠ "teacher" ∧
    (questionDelete
      ⟨[⟨"1700000000000k3f9", "What is a B-tree?", 0, [], false, false, 1700000000001⟩],
        RateLimits.empty⟩
      ⟨"student", "B"⟩ 1700000005000 "1700000000000k3f9").questions =
      [⟨"1700000000000k3f9", "What is a B-tree?", 0, [], false, false, 1700000000001⟩] :=
  ⟨by decide,
   (role_gate
      ⟨[⟨"1700000000000k3f9", "What is a B-tree?", 0, [], false, false, 1700000000001⟩],
        RateLimits.empty⟩
      ⟨"student", "B"⟩ 1700000005000 "1700000000000k3f9" (by decide)).2.2.1⟩

/-- C10, counterexample: a rate-admitted `question:create` whose text is `a`
followed by 300 spaces. The trimmed text is `a`, non-empty and of length 1,
but the raw text has length 301 and the handler returns at the length check:
no question is added. -/
theorem create_rejects_padded_text :
    (checkRateLimit State.init.rateLimits "A" .questions 1700000000000).2
      = some { allowed := true, waitSeconds := none } ∧
    jsTrim paddedText = "a" ∧ jsLength (jsTrim paddedText) = 1 ∧ jsLength paddedText = 301 ∧
    (questionCreate State.init ⟨"student", "A"⟩ 1700000000000 paddedText
      1700000000000 "k3f9" 1700000000001).questions = [] := by
  set_option maxRecDepth 100000 in decide

/-- C10, amended: a rate-admitted `question:create` whose raw text has at most
300 UTF-16 code units and is non-empty after trimming adds exactly one
question, with the trimmed text, `votes = 0`, no voters, `pinned = false` and
`answered = false`; the new array is the sorted arrangement of the old
questions and the new one, so every earlier question is still present and
unmodified. -/
theorem create_acceptance (s : State) (conn : Conn) (now : Int) (text : String)
    (idNow : Int) (rand : String) (createdAt : Int)
    (hrate : (checkRateLimit s.rateLimits conn.clientId .questions now).2
      = some { allowed := true, waitSeconds := none })
    (hne : jsTrim text ≠ "") (hlen : jsLength text ≤ 300) :
    (questionCreate s conn now text idNow rand createdAt).questions =
      sortQuestions (s.questions ++
        [{ id := genId idNow rand, text := jsTrim text, votes := 0, voters := [],
           pinned := false, answered := false, createdAt := createdAt }]) ∧
    (questionCreate s conn now text idNow rand createdAt).questions.Perm
      (s.questions ++
        [{ id := genId idNow rand, text := jsTrim text, votes := 0, voters := [],
           pinned := false, answered := false, createdAt := createdAt }]) ∧
    (questionCreate s conn now text idNow rand createdAt).questions.length =
      s.questions.length + 1 := by
  have h : (questionCreate s conn now text idNow rand createdAt).questions =
      sortQuestions (s.questions ++
        [{ id := genId idNow rand, text := jsTrim text, votes := 0, voters := [],
           pinned := false, answered := false, createdAt := createdAt }]) := by
    have htext : text ≠ "" := by
      intro h
      apply hne
      rw [h]
      decide
    unfold questionCreate
    simp [hrate, hne, htext, Nat.not_lt.mpr hlen]
  refine ⟨h, ?_, ?_⟩
  · rw [h]; exact sortQuestions_perm _
  · rw [h, (sortQuestions_perm _).length_eq]; simp

/-- Witness of C10: the first question of a fresh client. -/
theorem create_acceptance_witness :
    (checkRateLimit State.init.rateLimits "A" .questions 1700000000000).2
      = some { allowed := true, waitSeconds := none } ∧
    jsTrim "  What is a B-tree? " ≠ "" ∧ jsLength "  What is a B-tree? " ≤ 300 ∧
    (questionCreate State.init ⟨"student", "A"⟩ 1700000000000 "  What is a B-tree? "
        1700000000000 "k3f9" 1700000000001).questions =
      sortQuestions (State.init.questions ++
        [{ id := genId 1700000000000 "k3f9", text := jsTrim "  What is a B-tree? ", votes := 0,
           voters := [], pinned := false, answered := false, createdAt := 1700000000001 }]) :=
  ⟨by decide, by decide, by decide,
   (create_acceptance State.init ⟨"student", "A"⟩ 1700000000000 "  What is a B-tree? "
      1700000000000 "k3f9" 1700000000001 (by decide) (by decide) (by decide)).1⟩

/-! ## Question store: voting -/

theorem votesOf_perm (x : String) {qs qs2 : List Question} (h : qs.Perm qs2) :
    votesOf x qs = votesOf x qs2 := by
  unfold votesOf
  exact ((h.filter _).map _).sum_eq

theorem unvoted_perm (c x : String) {qs qs2 : List Question} (h : qs.Perm qs2) :
    unvoted c x qs = unvoted c x qs2 := by
  unfold unvoted
  exact h.countP_eq _

theorem votesOf_append (x : String) (l1 l2 : List Question) :
    votesOf x (l1 ++ l2) = votesOf x l1 + votesOf x l2 := by
  simp [votesOf]

theorem votesOf_cons (x : String) (q : Question) (l : List Question) :
    votesOf x (q :: l) = (if q.id = x then q.votes else 0) + votesOf x l := by
  unfold votesOf
  by_cases h : q.id = x <;> simp [List.filter_cons, h]

theorem unvoted_append (c x : String) (l1 l2 : List Question) :
    unvoted c x (l1 ++ l2) = unvoted c x l1 + unvoted c x l2 := by
  simp [unvoted]

theorem unvoted_cons (c x : String) (q : Question) (l : List Question) :
    unvoted c x (q :: l) = (if q.id = x ∧ c ∉ q.voters then 1 else 0) + unvoted c x l := by
  unfold unvoted
  rw [List.countP_cons]
  by_cases h1 : q.id = x <;> by_cases h2 : c ∈ q.voters <;> simp [h1, h2, Nat.add_comm]

theorem votesOf_nil (x : String) : votesOf x [] = 0 := rfl

theorem unvoted_nil (c x : String) : unvoted c x [] = 0 := rfl

theorem QuestionsStep.raise_bound {conn : Conn} {msg : Msg} {qs qs2 : List Question}
    (h : QuestionsStep conn msg qs qs2) (c x : String) :
    (if conn.clientId = c then votesOf x qs2 - votesOf x qs else 0) + unvoted c x qs2
      ≤ unvoted c x qs + (if createsId x msg = true then 1 else 0) := by
  cases h with
  | unchanged => split <;> omega
  | created text idNow rand createdAt _ hne hlen =>
    rw [votesOf_perm x (sortQuestions_perm _), unvoted_perm c x (sortQuestions_perm _),
      votesOf_append, unvoted_append, votesOf_cons, unvoted_cons, votesOf_nil, unvoted_nil]
    simp only [newQuestion, createsId, decide_eq_true_eq, ite_self]
    split <;> split <;> split <;> simp_all
  | upvoted id l1 q l2 hid hfirst hnew =>
    rw [votesOf_perm x (sortQuestions_perm _), unvoted_perm c x (sortQuestions_perm _),
      votesOf_append, unvoted_append, votesOf_cons, unvoted_cons,
      votesOf_append, unvoted_append, votesOf_cons, unvoted_cons]
    simp only [createsId]
    by_cases hc : conn.clientId = c
    · subst hc
      by_cases hx : q.id = x
      · simp [hx, hnew]
        omega
      · simp [hx]
    · have hmem : c ∈ q.voters ++ [conn.clientId] ↔ c ∈ q.voters := by
        simp only [List.mem_append, List.mem_singleton]
        constructor
        · rintro (h | h)
          · exact h
          · exact absurd h.symm hc
        · exact Or.inl
      simp only [if_neg hc, hmem]
      simp
  | answered id l1 q l2 =>
    rw [votesOf_perm x (sortQuestions_perm _), unvoted_perm c x (sortQuestions_perm _),
      votesOf_append, unvoted_append, votesOf_cons, unvoted_cons,
      votesOf_append, unvoted_append, votesOf_cons, unvoted_cons]
    simp only [createsId]
    split <;> simp
  | pinned id l1 q l2 =>
    rw [votesOf_perm x (sortQuestions_perm _), unvoted_perm c x (sortQuestions_perm _),
      votesOf_append, unvoted_append, votesOf_cons, unvoted_cons,
      votesOf_append, unvoted_append, votesOf_cons, unvoted_cons]
    simp only [createsId]
    split <;> simp
  | deleted id l1 q l2 =>
    rw [votesOf_append, unvoted_append, votesOf_append, unvoted_append, votesOf_cons,
      unvoted_cons]
    simp only [createsId]
    split <;> split <;> omega

theorem raisedBy_bound (c x : String) (es : List Event) :
    ∀ s : State, raisedBy c x s es + unvoted c x (run s es).questions
      ≤ unvoted c x s.questions + es.countP (fun e => createsId x e.msg) := by
  induction es with
  | nil => intro s; simp [raisedBy, run]
  | cons e es ih =>
    intro s
    have h1 := (step_questionsStep s e).raise_bound c x
    have h2 := ih (step s e)
    rw [run_cons]
    simp only [raisedBy, List.countP_cons]
    omega

theorem unvoted_le_countP (c x : String) (qs : List Question) :
    unvoted c x qs ≤ qs.countP (fun q => decide (q.id = x)) := by
  unfold unvoted
  apply List.countP_mono_left
  intro q _ h
  simp only [Bool.and_eq_true, decide_eq_true_eq] at h
  simpa using h.1

theorem questionUpvote_voted (s : State) (conn : Conn) (now : Int) (x : String) (q : Question)
    (hfind : s.questions.find? (fun q => decide (q.id = x)) = some q)
    (hmem : conn.clientId ∈ q.voters) :
    (questionUpvote s conn now x).questions = s.questions := by
  unfold questionUpvote
  simp only []
  split
  · rfl
  · simp [hfind, hmem]

/-- C2: at-most-once voting. Along any sequence of messages from any state, the
messages received with client id `c` raise the votes on the id `x` by at most
one per question carrying that id (those present that `c` has not voted for,
and those created later); so when `x` is the id of at most one question over
the run, they raise that question's votes by at most 1 in total. In particular
an upvote by a client already among the voters of the question found leaves
the collection unchanged. -/
theorem at_most_once_voting (s : State) (es : List Event) (c x : String) :
    raisedBy c x s es
      ≤ unvoted c x s.questions + es.countP (fun e => createsId x e.msg) ∧
    (s.questions.countP (fun q => decide (q.id = x))
        + es.countP (fun e => createsId x e.msg) ≤ 1 →
      raisedBy c x s es ≤ 1) ∧
    (∀ (conn : Conn) (now : Int) (q : Question),
      s.questions.find? (fun q => decide (q.id = x)) = some q →
      conn.clientId ∈ q.voters →
      (questionUpvote s conn now x).questions = s.questions) := by
  have h1 := raisedBy_bound c x es s
  have h2 := unvoted_le_countP c x s.questions
  refine ⟨by omega, fun h => by omega, ?_⟩
  intro conn now q hfind hmem
  exact questionUpvote_voted s conn now x q hfind hmem


/-- Witness of C2: client `B` upvotes the same question three times. -/
theorem at_most_once_voting_witness :
    (State.init.questions.countP (fun q => decide (q.id = "1700000000000k3f9"))
      + ([⟨⟨"student", "A"⟩, 1700000000000,
            .create "What is a B-tree?" 1700000000000 "k3f9" 1700000000001⟩,
          ⟨⟨"student", "B"⟩, 1700000005000, .upvote "1700000000000k3f9"⟩,
          ⟨⟨"student", "B"⟩, 1700000006000, .upvote "1700000000000k3f9"⟩,
          ⟨⟨"teacher", "T"⟩, 1700000007000, .pin "1700000000000k3f9"⟩,
          ⟨⟨"student", "B"⟩, 1700000008000, .upvote "1700000000000k3f9"⟩] : List Event).countP
          (fun e => createsId "1700000000000k3f9" e.msg) ≤ 1) ∧
    raisedBy "B" "1700000000000k3f9" State.init
        [⟨⟨"student", "A"⟩, 1700000000000,
            .create "What is a B-tree?" 1700000000000 "k3f9" 1700000000001⟩,
         ⟨⟨"student", "B"⟩, 1700000005000, .upvote "1700000000000k3f9"⟩,
         ⟨⟨"student", "B"⟩, 1700000006000, .upvote "1700000000000k3f9"⟩,
         ⟨⟨"teacher", "T"⟩, 1700000007000, .pin "1700000000000k3f9"⟩,
         ⟨⟨"student", "B"⟩, 1700000008000, .upvote "1700000000000k3f9"⟩] = 1 ∧
    raisedBy "B" "1700000000000k3f9" State.init
        [⟨⟨"student", "A"⟩, 1700000000000,
            .create "What is a B-tree?" 1700000000000 "k3f9" 1700000000001⟩,
         ⟨⟨"student", "B"⟩, 1700000005000, .upvote "1700000000000k3f9"⟩,
         ⟨⟨"student", "B"⟩, 1700000006000, .upvote "1700000000000k3f9"⟩,
         ⟨⟨"teacher", "T"⟩, 1700000007000, .pin "1700000000000k3f9"⟩,
         ⟨⟨"student", "B"⟩, 1700000008000, .upvote "1700000000000k3f9"⟩] ≤ 1 :=
  ⟨by decide, by decide,
   (at_most_once_voting State.init
      [⟨⟨"student", "A"⟩, 1700000000000,
          .create "What is a B-tree?" 1700000000000 "k3f9" 1700000000001⟩,
       ⟨⟨"student", "B"⟩, 1700000005000, .upvote "1700000000000k3f9"⟩,
       ⟨⟨"student", "B"⟩, 1700000006000, .upvote "1700000000000k3f9"⟩,
       ⟨⟨"teacher", "T"⟩, 1700000007000, .pin "1700000000000k3f9"⟩,
       ⟨⟨"student", "B"⟩, 1700000008000, .upvote "1700000000000k3f9"⟩]
      "B" "1700000000000k3f9").2.1 (by decide)⟩

/-! ## Snapshot order, disconnect and ids -/

theorem QuestionsStep.sorted_of_changed {conn : Conn} {msg : Msg} {qs qs2 : List Question}
    (h : QuestionsStep conn msg qs qs2) (hne : qs2 ≠ qs)
    (hmsg : ∀ id, msg ≠ .delete id) : qs2.Pairwise questionLe := by
  cases h with
  | unchanged => exact absurd rfl hne
  | created => exact sortQuestions_sorted _
  | upvoted => exact sortQuestions_sorted _
  | answered => exact sortQuestions_sorted _
  | pinned => exact sortQuestions_sorted _
  | deleted id l1 q l2 => exact absurd rfl (hmsg id)

theorem QuestionsStep.sublist_of_delete {conn : Conn} {id : String} {qs qs2 : List Question}
    (h : QuestionsStep conn (.delete id) qs qs2) : qs2.Sublist qs := by
  cases h with
  | unchanged => exact List.Sublist.refl _
  | deleted _ l1 q l2 =>
    exact List.Sublist.append_left (List.sublist_cons_self q l2) l1

theorem pairwise_sortedBefore {qs : List Question} (h : qs.Pairwise questionLe) :
    qs.Pairwise sortedBefore :=
  h.imp (fun hab => (questionLe_iff_sortedBefore _ _).mp hab)

/-- C11, counterexample: a snapshot whose records are not in sort order is
loaded, and a rate-admitted teacher deletes the last question. The state
changes, and the array that remains has an unpinned question before a pinned
one: the comparator is positive on that pair. -/
theorem delete_keeps_unsorted_order :
    loadQuestions (some unsortedSnapshot) =
      [⟨"1700000000000k3f9", "What is a B-tree?", 0, [], false, false, 1700000000000⟩,
       ⟨"1700000001000x7q2", "Is the exam open book?", 1, ["B"], true, false, 1700000001000⟩,
       ⟨"1700000002000m4d8", "Which chapter is next?", 0, [], false, false, 1700000002000⟩] ∧
    (questionDelete ⟨loadQuestions (some unsortedSnapshot), RateLimits.empty⟩
        ⟨"teacher", "T"⟩ 1700000005000 "1700000002000m4d8").questions =
      [⟨"1700000000000k3f9", "What is a B-tree?", 0, [], false, false, 1700000000000⟩,
       ⟨"1700000001000x7q2", "Is the exam open book?", 1, ["B"], true, false, 1700000001000⟩] ∧
    compareQuestions
      ⟨"1700000000000k3f9", "What is a B-tree?", 0, [], false, false, 1700000000000⟩
      ⟨"1700000001000x7q2", "Is the exam open book?", 1, ["B"], true, false, 1700000001000⟩ = 1 ∧
    ¬ (questionDelete ⟨loadQuestions (some unsortedSnapshot), RateLimits.empty⟩
        ⟨"teacher", "T"⟩ 1700000005000 "1700000002000m4d8").questions.Pairwise sortedBefore := by
  refine ⟨by decide, by decide, by decide, ?_⟩
  intro h
  have h2 : (questionDelete ⟨loadQuestions (some unsortedSnapshot), RateLimits.empty⟩
        ⟨"teacher", "T"⟩ 1700000005000 "1700000002000m4d8").questions =
      [⟨"1700000000000k3f9", "What is a B-tree?", 0, [], false, false, 1700000000000⟩,
       ⟨"1700000001000x7q2", "Is the exam open book?", 1, ["B"], true, false, 1700000001000⟩] := by
    decide
  rw [h2] at h
  have h3 := (List.pairwise_cons.mp h).1 _ (List.mem_singleton_self _)
  have h4 := (questionLe_iff_sortedBefore _ _).mpr h3
  revert h4
  unfold questionLe
  decide

/-- C11, amended: from every collection state, also an unsorted one, a
`question:create`, `question:upvote`, `question:answer` or `question:pin` that
changes the array leaves it sorted by (pinned desc, answered asc, votes desc,
createdAt asc); `question:delete` does not reorder: what it leaves is the old
array without one element, in the old order, hence sorted whenever the array
was sorted before. -/
theorem mutation_sorts (s : State) (conn : Conn) (now : Int) :
    (∀ (text : String) (idNow : Int) (rand : String) (createdAt : Int),
      (questionCreate s conn now text idNow rand createdAt).questions ≠ s.questions →
      (questionCreate s conn now text idNow rand createdAt).questions.Pairwise sortedBefore) ∧
    (∀ id : String,
      (questionUpvote s conn now id).questions ≠ s.questions →
      (questionUpvote s conn now id).questions.Pairwise sortedBefore) ∧
    (∀ id : String,
      (questionAnswer s conn now id).questions ≠ s.questions →
      (questionAnswer s conn now id).questions.Pairwise sortedBefore) ∧
    (∀ id : String,
      (questionPin s conn now id).questions ≠ s.questions →
      (questionPin s conn now id).questions.Pairwise sortedBefore) ∧
    (∀ id : String,
      (questionDelete s conn now id).questions.Sublist s.questions ∧
      (s.questions.Pairwise sortedBefore →
        (questionDelete s conn now id).questions.Pairwise sortedBefore)) := by
  refine ⟨?_, ?_, ?_, ?_, ?_⟩
  · intro text idNow rand createdAt hne
    exact pairwise_sortedBefore ((questionCreate_step s conn now text idNow rand createdAt)
      |>.sorted_of_changed hne (fun id h => by cases h))
  · intro id hne
    exact pairwise_sortedBefore ((questionUpvote_step s conn now id)
      |>.sorted_of_changed hne (fun id h => by cases h))
  · intro id hne
    exact pairwise_sortedBefore ((questionAnswer_step s conn now id)
      |>.sorted_of_changed hne (fun id h => by cases h))
  · intro id hne
    exact pairwise_sortedBefore ((questionPin_step s conn now id)
      |>.sorted_of_changed hne (fun id h => by cases h))
  · intro id
    have hsub := (questionDelete_step s conn now id).sublist_of_delete
    exact ⟨hsub, fun h => h.sublist hsub⟩

/-- Witness of C11: a teacher pins a question of the unsorted snapshot. -/
theorem mutation_sorts_witness :
    (questionPin ⟨loadQuestions (some unsortedSnapshot), RateLimits.empty⟩
        ⟨"teacher", "T"⟩ 1700000005000 "1700000002000m4d8").questions
      ≠ loadQuestions (some unsortedSnapshot) ∧
    (questionPin ⟨loadQuestions (some unsortedSnapshot), RateLimits.empty⟩
        ⟨"teacher", "T"⟩ 1700000005000 "1700000002000m4d8").questions.Pairwise sortedBefore :=
  ⟨by decide,
   (mutation_sorts ⟨loadQuestions (some unsortedSnapshot), RateLimits.empty⟩
      ⟨"teacher", "T"⟩ 1700000005000).2.2.2.1 "1700000002000m4d8" (by decide)⟩

/-- What a check finds after a disconnect. The handler removes the entry of the
client id, so all three buckets, and leaves the collection unchanged; the next
check of any class for that client id returns what it returns for a never-seen
client: `allowed = true` when the client id is no inherited property name, and
a thrown TypeError when it is one. An upvote on a question the client has voted
for still leaves the collection unchanged. -/
theorem disconnect_then_check (s : State) (conn : Conn) :
    (disconnect s conn).rateLimits conn.clientId = none ∧
    (∀ type : ActionClass, (disconnect s conn).rateLimits.bucket conn.clientId type = []) ∧
    (disconnect s conn).questions = s.questions ∧
    (∀ (type : ActionClass) (now : Int),
      (checkRateLimit (disconnect s conn).rateLimits conn.clientId type now).2
        = (checkRateLimit RateLimits.empty conn.clientId type now).2) ∧
    (conn.clientId ∉ objectPrototypeNames → ∀ (type : ActionClass) (now : Int),
      (checkRateLimit (disconnect s conn).rateLimits conn.clientId type now).2
        = some { allowed := true, waitSeconds := none } ∧
      (checkRateLimit (disconnect s conn).rateLimits conn.clientId type now).1 conn.clientId
        = (checkRateLimit RateLimits.empty conn.clientId type now).1 conn.clientId) ∧
    (conn.clientId ∈ objectPrototypeNames → ∀ (type : ActionClass) (now : Int),
      checkRateLimit (disconnect s conn).rateLimits conn.clientId type now
        = ((disconnect s conn).rateLimits, none)) ∧
    (∀ (again : Conn) (now : Int) (id : String) (q : Question),
      again.clientId = conn.clientId →
      s.questions.find? (fun q => decide (q.id = id)) = some q →
      conn.clientId ∈ q.voters →
      (questionUpvote (disconnect s conn) again now id).questions = s.questions) := by
  have hnone : (disconnect s conn).rateLimits conn.clientId = none := by
    simp [disconnect, RateLimits.deleteClient]
  have hplain : conn.clientId ∉ objectPrototypeNames → ∀ (type : ActionClass) (now : Int),
      (checkRateLimit (disconnect s conn).rateLimits conn.clientId type now).2
        = some { allowed := true, waitSeconds := none } ∧
      (checkRateLimit RateLimits.empty conn.clientId type now).2
        = some { allowed := true, waitSeconds := none } ∧
      (checkRateLimit (disconnect s conn).rateLimits conn.clientId type now).1 conn.clientId
        = (checkRateLimit RateLimits.empty conn.clientId type now).1 conn.clientId := by
    intro hname type now
    have ht1 : (disconnect s conn).rateLimits.throwsFor conn.clientId = false := by
      simp [RateLimits.throwsFor, hname]
    have ht2 : RateLimits.empty.throwsFor conn.clientId = false := by
      simp [RateLimits.throwsFor, hname]
    refine ⟨?_, ?_, ?_⟩
    · rw [checkRateLimit_result _ _ _ _ ht1]
      simp only [RateLimits.bucket, hnone]
      cases type <;> rfl
    · rw [checkRateLimit_result _ _ _ _ ht2]
      cases type <;> rfl
    · unfold checkRateLimit
      rw [if_neg (by simp [ht1]), if_neg (by simp [ht2])]
      simp [hnone, RateLimits.setClient, RateLimits.empty]
  have hinherited : conn.clientId ∈ objectPrototypeNames → ∀ (type : ActionClass) (now : Int),
      checkRateLimit (disconnect s conn).rateLimits conn.clientId type now
        = ((disconnect s conn).rateLimits, none) ∧
      checkRateLimit RateLimits.empty conn.clientId type now = (RateLimits.empty, none) := by
    intro hname type now
    constructor
    · exact checkRateLimit_throws _ _ _ _ (by simp [RateLimits.throwsFor, hnone, hname])
    · exact checkRateLimit_throws _ _ _ _ (by simp [RateLimits.throwsFor, RateLimits.empty, hname])
  refine ⟨hnone, ?_, rfl, ?_, ?_, ?_, ?_⟩
  · intro type
    simp only [RateLimits.bucket, hnone]
    cases type <;> rfl
  · intro type now
    by_cases hname : conn.clientId ∈ objectPrototypeNames
    · rw [(hinherited hname type now).1, (hinherited hname type now).2]
    · rw [(hplain hname type now).1, (hplain hname type now).2.1]
  · intro hname type now
    exact ⟨(hplain hname type now).1, (hplain hname type now).2.2⟩
  · intro hname type now
    exact (hinherited hname type now).1
  · intro again now id q hid hfind hmem
    have := questionUpvote_voted (disconnect s conn) again now id q hfind (by rw [hid]; exact hmem)
    exact this

/-- C12: evaluation at the failing input. A client connects with the client id
`constructor`, disconnects and reconnects. The disconnect leaves `rateLimits`
without an entry for it, as for a never-seen client; the next check of each
class is not admitted: it throws (`none`), because `rateLimits["constructor"]`
is the inherited constructor, so no buckets are created and `bucket` is
`undefined`. A `question:create` on the new connection inserts nothing. A
never-seen client `A` is admitted. -/
theorem reconnect_with_inherited_name_throws :
    (disconnect State.init ⟨"student", "constructor"⟩).rateLimits "constructor" = none ∧
    checkRateLimit (disconnect State.init ⟨"student", "constructor"⟩).rateLimits
        "constructor" .questions 1700000000000
      = ((disconnect State.init ⟨"student", "constructor"⟩).rateLimits, none) ∧
    (checkRateLimit (disconnect State.init ⟨"student", "constructor"⟩).rateLimits
        "constructor" .upvotes 1700000000000).2 = none ∧
    (checkRateLimit (disconnect State.init ⟨"student", "constructor"⟩).rateLimits
        "constructor" .teacher 1700000000000).2 = none ∧
    (questionCreate (disconnect State.init ⟨"student", "constructor"⟩)
        ⟨"student", "constructor"⟩ 1700000000000 "What is a B-tree?"
        1700000000000 "k3f9" 1700000000001).questions = [] ∧
    (checkRateLimit (disconnect State.init ⟨"student", "A"⟩).rateLimits
        "A" .questions 1700000000000).2 = some { allowed := true, waitSeconds := none } := by
  refine ⟨by decide, ?_, by decide, by decide, by decide, by decide⟩
  exact checkRateLimit_throws _ _ _ _ (by decide)

/-- C13, counterexample: two sockets are open with the client id `A`, and the
client has one time stamp in its `questions` bucket. The socket `s2` closes;
`s1` stays open, and the entry of `A` in `rateLimits` is gone. -/
theorem disconnect_of_one_socket_removes_buckets :
    twoSockets.sockets = [("s1", ⟨"student", "A"⟩), ("s2", ⟨"student", "A"⟩)] ∧
    twoSockets.state.rateLimits "A" = some ⟨[1700000000000], [], []⟩ ∧
    (twoSockets.disconnectSocket "s2").sockets = [("s1", ⟨"student", "A"⟩)] ∧
    (twoSockets.disconnectSocket "s2").state.rateLimits "A" = none := by
  decide

/-- C13, amended: the buckets of a client id live until any socket with that
client id closes. The disconnect of an open socket removes the entry of its
client id whether or not other sockets with the same client id stay open; the
entries of the other client ids and the collection are unchanged. -/
theorem disconnect_removes_buckets (sv : Server) (socketId : String) (p : String × Conn)
    (hopen : sv.sockets.find? (fun p => decide (p.1 = socketId)) = some p) :
    (sv.disconnectSocket socketId).state.rateLimits p.2.clientId = none ∧
    (∀ c : String, c ≠ p.2.clientId →
      (sv.disconnectSocket socketId).state.rateLimits c = sv.state.rateLimits c) ∧
    (sv.disconnectSocket socketId).state.questions = sv.state.questions ∧
    (sv.disconnectSocket socketId).sockets
      = sv.sockets.filter (fun p => decide (p.1 ≠ socketId)) := by
  unfold Server.disconnectSocket
  rw [hopen]
  refine ⟨?_, ?_, rfl, rfl⟩
  · simp [disconnect, RateLimits.deleteClient]
  · intro c hc
    simp [disconnect, RateLimits.deleteClient, hc]

/-- Witness of C13: the socket `s2` of the two-socket scenario closes. -/
theorem disconnect_removes_buckets_witness :
    twoSockets.sockets.find? (fun p => decide (p.1 = "s2")) = some ("s2", ⟨"student", "A"⟩) ∧
    (twoSockets.disconnectSocket "s2").state.rateLimits "A" = none :=
  ⟨by decide,
   (disconnect_removes_buckets twoSockets "s2" ("s2", ⟨"student", "A"⟩) (by decide)).1⟩

/-- C14, counterexample: two `question:create` messages are handled in the same
millisecond and draw the same random suffix. Both questions are inserted with
the id `1700000000000k3f9`. -/
theorem same_clock_same_suffix_same_id :
    ((run State.init
      [⟨⟨"student", "A"⟩, 1700000000000,
          .create "What is a B-tree?" 1700000000000 "k3f9" 1700000000000⟩,
       ⟨⟨"student", "B"⟩, 1700000000000,
          .create "What is a heap?" 1700000000000 "k3f9" 1700000000000⟩]).questions.map
        (fun q => (q.id, q.text)))
      = [("1700000000000k3f9", "What is a B-tree?"), ("1700000000000k3f9", "What is a heap?")] ∧
    ¬ ((run State.init
      [⟨⟨"student", "A"⟩, 1700000000000,
          .create "What is a B-tree?" 1700000000000 "k3f9" 1700000000000⟩,
       ⟨⟨"student", "B"⟩, 1700000000000,
          .create "What is a heap?" 1700000000000 "k3f9" 1700000000000⟩]).questions.map
        (fun q => q.id)).Nodup := by
  decide

theorem QuestionsStep.ids_subperm {conn : Conn} {msg : Msg} {qs qs2 : List Question}
    (h : QuestionsStep conn msg qs qs2) (e : Event) (he : e.msg = msg) (rest : List String) :
    ((qs.map (fun q => q.id)) ++ generatedIds [e] ++ rest).Nodup →
      ((qs2.map (fun q => q.id)) ++ rest).Nodup := by
  intro hnd
  cases h with
  | unchanged =>
    refine hnd.sublist ?_
    rw [List.append_assoc]
    exact List.Sublist.append_left (List.sublist_append_right _ _) _
  | created text idNow rand createdAt =>
    have hperm := ((sortQuestions_perm (qs ++ [newQuestion text idNow rand createdAt])).map
      (fun q => q.id)).append_right rest
    rw [hperm.nodup_iff]
    simpa [generatedIds, he, newQuestion] using hnd
  | upvoted id l1 q l2 =>
    have hperm := ((sortQuestions_perm (l1 ++
      { q with voters := q.voters ++ [conn.clientId], votes := q.votes + 1 } :: l2)).map
      (fun q => q.id)).append_right rest
    rw [hperm.nodup_iff]
    simpa [generatedIds, he] using hnd
  | answered id l1 q l2 =>
    have hperm := ((sortQuestions_perm (l1 ++ { q with answered := !q.answered } :: l2)).map
      (fun q => q.id)).append_right rest
    rw [hperm.nodup_iff]
    simpa [generatedIds, he] using hnd
  | pinned id l1 q l2 =>
    have hperm := ((sortQuestions_perm (l1 ++ { q with pinned := !q.pinned } :: l2)).map
      (fun q => q.id)).append_right rest
    rw [hperm.nodup_iff]
    simpa [generatedIds, he] using hnd
  | deleted id l1 q l2 =>
    refine hnd.sublist ?_
    simp only [generatedIds, he, List.append_nil]
    refine List.Sublist.append_right ?_ rest
    exact (List.Sublist.append_left (List.sublist_cons_self q l2) l1).map _

theorem generatedIds_cons (e : Event) (es : List Event) :
    generatedIds (e :: es) = generatedIds [e] ++ generatedIds es := by
  simp only [generatedIds]
  cases e.msg <;> simp

theorem run_ids_nodup (es : List Event) :
    ∀ s : State, ((s.questions.map (fun q => q.id)) ++ generatedIds es).Nodup →
      ((run s es).questions.map (fun q => q.id)).Nodup := by
  induction es with
  | nil => intro s h; simpa [generatedIds, run] using h
  | cons e es ih =>
    intro s h
    rw [run_cons]
    apply ih
    rw [generatedIds_cons, ← List.append_assoc] at h
    exact (step_questionsStep s e).ids_subperm e rfl _ h

theorem QuestionsStep.ids_subset {conn : Conn} {msg : Msg} {qs qs2 : List Question}
    (h : QuestionsStep conn msg qs qs2) (e : Event) (he : e.msg = msg) :
    ∀ x ∈ qs2.map (fun q => q.id), x ∈ qs.map (fun q => q.id) ∨ x ∈ generatedIds [e] := by
  intro x hx
  cases h with
  | unchanged => exact Or.inl hx
  | created text idNow rand createdAt =>
    have := ((sortQuestions_perm (qs ++ [newQuestion text idNow rand createdAt])).map
      (fun q => q.id)).subset hx
    simp only [List.map_append, List.map_cons, List.map_nil, List.mem_append,
      List.mem_singleton] at this
    rcases this with h1 | h1
    · exact Or.inl h1
    · right; simp [generatedIds, he, h1, newQuestion]
  | upvoted id l1 q l2 =>
    have := ((sortQuestions_perm (l1 ++
      { q with voters := q.voters ++ [conn.clientId], votes := q.votes + 1 } :: l2)).map
      (fun q => q.id)).subset hx
    left; simpa using this
  | answered id l1 q l2 =>
    have := ((sortQuestions_perm (l1 ++ { q with answered := !q.answered } :: l2)).map
      (fun q => q.id)).subset hx
    left; simpa using this
  | pinned id l1 q l2 =>
    have := ((sortQuestions_perm (l1 ++ { q with pinned := !q.pinned } :: l2)).map
      (fun q => q.id)).subset hx
    left; simpa using this
  | deleted id l1 q l2 =>
    left
    exact ((List.Sublist.append_left (List.sublist_cons_self q l2) l1).map _).subset hx

theorem run_ids_subset (es : List Event) :
    ∀ s : State, ∀ x ∈ (run s es).questions.map (fun q => q.id),
      x ∈ s.questions.map (fun q => q.id) ∨ x ∈ generatedIds es := by
  induction es with
  | nil => intro s x hx; exact Or.inl hx
  | cons e es ih =>
    intro s x hx
    rw [run_cons] at hx
    rw [generatedIds_cons]
    rcases ih (step s e) x hx with h | h
    · rcases (step_questionsStep s e).ids_subset e rfl x h with h2 | h2
      · exact Or.inl h2
      · exact Or.inr (List.mem_append_left _ h2)
    · exact Or.inr (List.mem_append_right _ h)

/-- C14, amended: id uniqueness as far as the generator provides it. When the
ids generated for the `question:create` messages of a run are pairwise
distinct, no two questions in the collection reached from the empty one have
the same id, and every id in the collection is one of the generated ids: no
handler changes an id, and none checks a new id against the earlier ones. -/
theorem ids_unique_of_generated_distinct (es : List Event)
    (hgen : (generatedIds es).Nodup) :
    ((run State.init es).questions.map (fun q => q.id)).Nodup ∧
    (∀ q ∈ (run State.init es).questions, q.id ∈ generatedIds es) := by
  constructor
  · exact run_ids_nodup es State.init (by simpa [State.init] using hgen)
  · intro q hq
    have := run_ids_subset es State.init q.id (List.mem_map_of_mem _ hq)
    simpa [State.init] using this

/-! ## Public view, toggles and deletion -/

/-- Witness of C14: two creations in one millisecond with different suffixes. -/
theorem ids_unique_of_generated_distinct_witness :
    (generatedIds
      [⟨⟨"student", "A"⟩, 1700000000000,
          .create "What is a B-tree?" 1700000000000 "k3f9" 1700000000000⟩,
       ⟨⟨"student", "B"⟩, 1700000000000,
          .create "What is a heap?" 1700000000000 "x7q2" 1700000000000⟩]).Nodup ∧
    ((run State.init
      [⟨⟨"student", "A"⟩, 1700000000000,
          .create "What is a B-tree?" 1700000000000 "k3f9" 1700000000000⟩,
       ⟨⟨"student", "B"⟩, 1700000000000,
          .create "What is a heap?" 1700000000000 "x7q2" 1700000000000⟩]).questions.map
        (fun q => q.id)).Nodup :=
  ⟨by decide,
   (ids_unique_of_generated_distinct
      [⟨⟨"student", "A"⟩, 1700000000000,
          .create "What is a B-tree?" 1700000000000 "k3f9" 1700000000000⟩,
       ⟨⟨"student", "B"⟩, 1700000000000,
          .create "What is a heap?" 1700000000000 "x7q2" 1700000000000⟩] (by decide)).1⟩

/-- C15: public view projection. `sanitizedQuestions` returns a sequence as
long as `questions` and in the same order, whose i-th record carries the
fields id, text, votes, pinned and answered of the i-th question; the record
type has no voters field, so two collections that differ only in the members
of voters sets have the same view. -/
theorem sanitizedQuestions_projection (qs : List Question) :
    (sanitizedQuestions qs).length = qs.length ∧
    (∀ i : Nat, (sanitizedQuestions qs)[i]? =
      (qs[i]?).map (fun q => PublicQuestion.mk q.id q.text q.votes q.pinned q.answered)) ∧
    (∀ qs2 : List Question,
      List.Forall₂ (fun a b => b = { a with voters := b.voters }) qs qs2 →
      sanitizedQuestions qs = sanitizedQuestions qs2) := by
  refine ⟨by simp [sanitizedQuestions], ?_, ?_⟩
  · intro i
    simp [sanitizedQuestions, List.getElem?_map]
  · intro qs2 h
    induction h with
    | nil => rfl
    | cons hab _ ih =>
      simp only [sanitizedQuestions, List.map_cons, List.cons.injEq] at ih ⊢
      refine ⟨?_, ih⟩
      rw [hab]

/-- Witness of C15: the same question voted for by `B` or by `C`. -/
theorem sanitizedQuestions_projection_witness :
    List.Forall₂ (fun a b => b = { a with voters := b.voters })
      [(⟨"1700000000000k3f9", "What is a B-tree?", 1, ["B"], false, false, 1700000000001⟩ :
        Question)]
      [⟨"1700000000000k3f9", "What is a B-tree?", 1, ["C"], false, false, 1700000000001⟩] ∧
    sanitizedQuestions
      [⟨"1700000000000k3f9", "What is a B-tree?", 1, ["B"], false, false, 1700000000001⟩] =
    sanitizedQuestions
      [⟨"1700000000000k3f9", "What is a B-tree?", 1, ["C"], false, false, 1700000000001⟩] :=
  ⟨List.Forall₂.cons rfl List.Forall₂.nil,
   (sanitizedQuestions_projection
      [⟨"1700000000000k3f9", "What is a B-tree?", 1, ["B"], false, false, 1700000000001⟩]).2.2
      [⟨"1700000000000k3f9", "What is a B-tree?", 1, ["C"], false, false, 1700000000001⟩]
      (List.Forall₂.cons rfl List.Forall₂.nil)⟩

theorem find?_first (p : Question → Bool) (l1 : List Question) (q : Question)
    (l2 : List Question) (hfirst : ∀ u ∈ l1, p u = false) (hq : p q = true) :
    (l1 ++ q :: l2).find? p = some q := by
  induction l1 with
  | nil => simp [List.find?_cons, hq]
  | cons a l ih =>
    have ha : p a = false := hfirst a (List.mem_cons_self _ _)
    simp only [List.cons_append, List.find?_cons, ha]
    exact ih (fun u hu => hfirst u (List.mem_cons_of_mem _ hu))

theorem modifyFirst_first (p : Question → Bool) (f : Question → Question) (l1 : List Question)
    (q : Question) (l2 : List Question) (hfirst : ∀ u ∈ l1, p u = false) (hq : p q = true) :
    modifyFirst p f (l1 ++ q :: l2) = l1 ++ f q :: l2 := by
  induction l1 with
  | nil => simp [modifyFirst, hq]
  | cons a l ih =>
    have ha : p a = false := hfirst a (List.mem_cons_self _ _)
    simp only [List.cons_append, modifyFirst, ha]
    simp [ih (fun u hu => hfirst u (List.mem_cons_of_mem _ hu))]

theorem findIdx?_first (p : Question → Bool) (l1 : List Question) (q : Question)
    (l2 : List Question) (hfirst : ∀ u ∈ l1, p u = false) (hq : p q = true) :
    ∀ start : Nat, (l1 ++ q :: l2).findIdx? p start = some (start + l1.length) := by
  induction l1 with
  | nil => intro start; simp [List.findIdx?, hq]
  | cons a l ih =>
    intro start
    have ha : p a = false := hfirst a (List.mem_cons_self _ _)
    have := ih (fun u hu => hfirst u (List.mem_cons_of_mem _ hu)) (start + 1)
    simp only [List.cons_append, List.findIdx?, ha, List.length_cons, Bool.false_eq_true,
      if_false]
    rw [show l.append (q :: l2) = l ++ q :: l2 from rfl, this]
    congr 1
    omega

theorem findIdx?_none (p : Question → Bool) (l : List Question)
    (h : ∀ u ∈ l, p u = false) : ∀ start : Nat, l.findIdx? p start = none := by
  induction l with
  | nil => intro start; rfl
  | cons a l ih =>
    intro start
    have ha : p a = false := h a (List.mem_cons_self _ _)
    simp only [List.findIdx?, ha]
    simpa using ih (fun u hu => h u (List.mem_cons_of_mem _ hu)) (start + 1)

/-- C16: toggle contract. For a rate-admitted teacher message `question:answer`
(resp. `question:pin`) with id `x`: when no question has id `x` the collection
is unchanged; otherwise the first question with id `x` has its answered (resp.
pinned) flag negated and its other fields kept, every other question is
unchanged, and the new array is the sorted arrangement of these: the same
questions with one flag flipped. -/
theorem toggle_contract (s : State) (conn : Conn) (now : Int) (x : String)
    (hrole : conn.role = "teacher")
    (hrate : (checkRateLimit s.rateLimits conn.clientId .teacher now).2
      = some { allowed := true, waitSeconds := none }) :
    ((∀ q ∈ s.questions, q.id ≠ x) →
      (questionAnswer s conn now x).questions = s.questions ∧
      (questionPin s conn now x).questions = s.questions) ∧
    (∀ (l1 : List Question) (q : Question) (l2 : List Question),
      s.questions = l1 ++ q :: l2 → q.id = x → (∀ u ∈ l1, u.id ≠ x) →
      (questionAnswer s conn now x).questions
        = sortQuestions (l1 ++ { q with answered := !q.answered } :: l2) ∧
      (questionAnswer s conn now x).questions.Perm
        (l1 ++ { q with answered := !q.answered } :: l2) ∧
      (questionPin s conn now x).questions
        = sortQuestions (l1 ++ { q with pinned := !q.pinned } :: l2) ∧
      (questionPin s conn now x).questions.Perm
        (l1 ++ { q with pinned := !q.pinned } :: l2)) := by
  constructor
  · intro hnone
    have hfind : s.questions.find? (fun q => decide (q.id = x)) = none := by
      rw [List.find?_eq_none]
      intro q hq
      simpa using hnone q hq
    constructor
    · unfold questionAnswer
      simp [hrole, hrate, hfind]
    · unfold questionPin
      simp [hrole, hrate, hfind]
  · intro l1 q l2 hsplit hid hfirst
    have hp1 : ∀ u ∈ l1, (fun q : Question => decide (q.id = x)) u = false := by
      intro u hu
      simpa using hfirst u hu
    have hpq : (fun q : Question => decide (q.id = x)) q = true := by simpa using hid
    have hfind := find?_first _ l1 q l2 hp1 hpq
    have ha : (questionAnswer s conn now x).questions
        = sortQuestions (l1 ++ { q with answered := !q.answered } :: l2) := by
      unfold questionAnswer
      simp only [hrole, hrate, hsplit, hfind]
      rw [modifyFirst_first _ _ l1 q l2 hp1 hpq]
      simp
    have hb : (questionPin s conn now x).questions
        = sortQuestions (l1 ++ { q with pinned := !q.pinned } :: l2) := by
      unfold questionPin
      simp only [hrole, hrate, hsplit, hfind]
      rw [modifyFirst_first _ _ l1 q l2 hp1 hpq]
      simp
    refine ⟨ha, ?_, hb, ?_⟩
    · rw [ha]; exact sortQuestions_perm _
    · rw [hb]; exact sortQuestions_perm _

/-- C17: delete contract. For a rate-admitted teacher message `question:delete`
with id `x`: when no question has id `x` the collection is unchanged;
otherwise the first question with id `x` is removed, the collection shrinks by
exactly one, the remaining questions are unmodified and in their old order,
and with unique ids no question with id `x` is left. -/
theorem delete_contract (s : State) (conn : Conn) (now : Int) (x : String)
    (hrole : conn.role = "teacher")
    (hrate : (checkRateLimit s.rateLimits conn.clientId .teacher now).2
      = some { allowed := true, waitSeconds := none }) :
    ((∀ q ∈ s.questions, q.id ≠ x) →
      (questionDelete s conn now x).questions = s.questions) ∧
    (∀ (l1 : List Question) (q : Question) (l2 : List Question),
      s.questions = l1 ++ q :: l2 → q.id = x → (∀ u ∈ l1, u.id ≠ x) →
      (questionDelete s conn now x).questions = l1 ++ l2 ∧
      (questionDelete s conn now x).questions.length + 1 = s.questions.length ∧
      (questionDelete s conn now x).questions.Sublist s.questions ∧
      ((s.questions.map (fun q => q.id)).Nodup →
        ∀ u ∈ (questionDelete s conn now x).questions, u.id ≠ x)) := by
  constructor
  · intro hnone
    have hfind : s.questions.findIdx? (fun q => decide (q.id = x)) = none :=
      findIdx?_none _ _ (fun u hu => by simpa using hnone u hu) 0
    unfold questionDelete
    simp [hrole, hrate, hfind]
  · intro l1 q l2 hsplit hid hfirst
    have hp1 : ∀ u ∈ l1, (fun q : Question => decide (q.id = x)) u = false := by
      intro u hu
      simpa using hfirst u hu
    have hpq : (fun q : Question => decide (q.id = x)) q = true := by simpa using hid
    have hfind := findIdx?_first _ l1 q l2 hp1 hpq 0
    have hd : (questionDelete s conn now x).questions = l1 ++ l2 := by
      unfold questionDelete
      simp only [hrole, hrate, hsplit, hfind]
      simp [eraseIdx_split]
    refine ⟨hd, ?_, ?_, ?_⟩
    · rw [hd, hsplit]; simp; omega
    · rw [hd, hsplit]
      exact List.Sublist.append_left (List.sublist_cons_self q l2) l1
    · intro hnd u hu
      rw [hd] at hu
      rw [hsplit] at hnd
      simp only [List.map_append, List.map_cons] at hnd
      rw [List.nodup_append] at hnd
      obtain ⟨_, h2, h3⟩ := hnd
      rcases List.mem_append.mp hu with hu1 | hu2
      · exact hfirst u hu1
      · intro hux
        have h4 := (List.nodup_cons.mp h2).1
        apply h4
        rw [hid, ← hux]
        exact List.mem_map_of_mem _ hu2

/-! ## Rate limiter: isolation, bucket shape and spent quota -/

theorem resultsFor_stable (c : String) (k : ActionClass) (calls : List Call) :
    ∀ rl1 rl2 : RateLimits, rl1.bucket c k = rl2.bucket c k →
      rl1.throwsFor c = rl2.throwsFor c →
      resultsFor c k calls (runCalls rl1 calls).2 = (runCalls rl2 (callsFor c k calls)).2 := by
  induction calls with
  | nil => intro rl1 rl2 _ _; rfl
  | cons call rest ih =>
    intro rl1 rl2 hb ht
    by_cases hck : call.clientId = c ∧ call.type = k
    · have hfilter : callsFor c k (call :: rest) = call :: callsFor c k rest := by
        simp [callsFor, List.filter_cons, hck]
      rw [hfilter]
      simp only [runCalls, resultsFor, if_pos hck]
      obtain ⟨hc, hk⟩ := hck
      rw [hc, hk]
      by_cases hthrow : rl1.throwsFor c = true
      · have hthrow2 : rl2.throwsFor c = true := by rw [← ht]; exact hthrow
        rw [checkRateLimit_throws rl1 c k call.now hthrow,
          checkRateLimit_throws rl2 c k call.now hthrow2]
        rw [ih rl1 rl2 hb ht]
      · have h1 : rl1.throwsFor c = false := by simpa using hthrow
        have h2 : rl2.throwsFor c = false := by rw [← ht]; exact h1
        have hres : (checkRateLimit rl1 c k call.now).2 = (checkRateLimit rl2 c k call.now).2 := by
          rw [checkRateLimit_result _ _ _ _ h1, checkRateLimit_result _ _ _ _ h2, hb]
        have hnext : (checkRateLimit rl1 c k call.now).1.bucket c k =
            (checkRateLimit rl2 c k call.now).1.bucket c k := by
          rw [checkRateLimit_bucket_same _ _ _ _ h1, checkRateLimit_bucket_same _ _ _ _ h2, hb]
        have hnext2 : (checkRateLimit rl1 c k call.now).1.throwsFor c =
            (checkRateLimit rl2 c k call.now).1.throwsFor c := by
          rw [throwsFor_after, throwsFor_after, ht]
        rw [hres, ih _ _ hnext hnext2]
    · have hfilter : callsFor c k (call :: rest) = callsFor c k rest := by
        simp [callsFor, List.filter_cons, hck]
      rw [hfilter]
      simp only [runCalls, resultsFor, if_neg hck]
      apply ih
      · rw [checkRateLimit_bucket_other rl1 call.clientId call.type call.now c k
          (fun h => hck ⟨h.1.symm, h.2.symm⟩)]
        exact hb
      · rw [throwsFor_after]
        exact ht

/-- C20: rate-limit isolation. A call `checkRateLimit(c, k)` leaves the entry of
every other client id as it is and changes no bucket but that of `(c, k)`; what
it returns and the new bucket are computed from the bucket of `(c, k)` and the
clock alone (a call that throws returns nothing and changes nothing), so along
any sequence of calls the results for `(c, k)` are those of the calls for
`(c, k)` run on their own. -/
theorem rate_limit_isolation (rl : RateLimits) (c : String) (k : ActionClass) (now : Int) :
    (∀ c2 : String, c2 ≠ c → (checkRateLimit rl c k now).1 c2 = rl c2) ∧
    (∀ (c2 : String) (k2 : ActionClass), ¬ (c2 = c ∧ k2 = k) →
      (checkRateLimit rl c k now).1.bucket c2 k2 = rl.bucket c2 k2) ∧
    (checkRateLimit rl c k now).2 =
      (if rl.throwsFor c = true then none
       else some (checkBucket (RATE_LIMITS k) now (rl.bucket c k)).2) ∧
    (checkRateLimit rl c k now).1.bucket c k =
      (if rl.throwsFor c = true then rl.bucket c k
       else (checkBucket (RATE_LIMITS k) now (rl.bucket c k)).1) ∧
    (∀ calls : List Call,
      resultsFor c k calls (runCalls rl calls).2 = (runCalls rl (callsFor c k calls)).2) := by
  refine ⟨?_, ?_, ?_, ?_, ?_⟩
  · intro c2 hc2
    by_cases ht : rl.throwsFor c = true
    · rw [checkRateLimit_throws rl c k now ht]
    · unfold checkRateLimit
      rw [if_neg ht]
      simp [RateLimits.setClient, hc2]
  · intro c2 k2 h
    exact checkRateLimit_bucket_other rl c k now c2 k2 h
  · by_cases ht : rl.throwsFor c = true
    · rw [if_pos ht, checkRateLimit_throws rl c k now ht]
    · rw [if_neg ht]
      exact checkRateLimit_result rl c k now (by simpa using ht)
  · by_cases ht : rl.throwsFor c = true
    · rw [if_pos ht, checkRateLimit_throws rl c k now ht]
    · rw [if_neg ht]
      exact checkRateLimit_bucket_same rl c k now (by simpa using ht)
  · intro calls
    exact resultsFor_stable c k calls rl rl rfl rfl

/-- Witness of C20: a check for client `A` leaves the entry of client `B`. -/
theorem rate_limit_isolation_witness :
    "B" ≠ "A" ∧
    (checkRateLimit (runCalls RateLimits.empty [⟨"B", .upvotes, 1700000000000⟩]).1
      "A" .questions 1700000001000).1 "B" = some ⟨[], [1700000000000], []⟩ :=
  ⟨by decide,
   ((rate_limit_isolation (runCalls RateLimits.empty [⟨"B", .upvotes, 1700000000000⟩]).1
      "A" .questions 1700000001000).1 "B" (by decide)).trans (by decide)⟩

/-- C19: bucket shape invariant. After any sequence of `checkRateLimit` calls
with a non-decreasing clock, started with no buckets, every bucket has its time
stamps in non-decreasing order, oldest first, and holds at most `count` of
them. -/
theorem bucket_shape (calls : List Call) (clientId : String) (type : ActionClass)
    (hclock : ClockMonotone calls) :
    ((runCalls RateLimits.empty calls).1.bucket clientId type).Pairwise (fun x y => x ≤ y) ∧
    ((runCalls RateLimits.empty calls).1.bucket clientId type).length
      ≤ (RATE_LIMITS type).count := by
  cases hlast : calls.getLast? with
  | none =>
    have : calls = [] := by simpa using hlast
    subst this
    have hb := BucketOk_empty clientId type 0
    exact ⟨hb.1, hb.2.2⟩
  | some last =>
    obtain ⟨front, hfront⟩ := List.getLast?_eq_some_iff.mp hlast
    have hhi : ∀ call ∈ calls, call.now ≤ last.now := by
      intro call hcall
      rw [hfront] at hcall hclock
      rcases List.mem_append.mp hcall with h | h
      · unfold ClockMonotone at hclock
        rw [List.pairwise_append] at hclock
        exact hclock.2.2 call h last (List.mem_singleton_self _)
      · rw [List.mem_singleton] at h
        rw [h]
    have hlo : ∀ call ∈ calls, (calls.head?.map (fun x => x.now)).getD last.now ≤ call.now := by
      intro call hcall
      cases calls with
      | nil => simp at hcall
      | cons c0 rest =>
        simp only [List.head?_cons, Option.map_some', Option.getD_some]
        rcases List.mem_cons.mp hcall with rfl | hmem
        · exact le_refl _
        · exact (List.pairwise_cons.mp hclock).1 call hmem
    have hT : (calls.head?.map (fun x => x.now)).getD last.now ≤ last.now := by
      cases calls with
      | nil => simp
      | cons c0 rest => simpa using hhi c0 (List.mem_cons_self _ _)
    have hok := runCalls_bucket_ok clientId type calls RateLimits.empty _ last.now
      (BucketOk_empty clientId type _) hlo hclock hhi hT
    exact ⟨hok.1, hok.2.2⟩

/-- Witness of C19: five calls, the fourth denied, the fifth after an expiry. -/
theorem bucket_shape_witness :
    ClockMonotone [⟨"a", .questions, 0⟩, ⟨"a", .questions, 10⟩, ⟨"a", .questions, 20⟩,
      ⟨"a", .questions, 30⟩, ⟨"a", .questions, 60005⟩] ∧
    (runCalls RateLimits.empty [⟨"a", .questions, 0⟩, ⟨"a", .questions, 10⟩,
      ⟨"a", .questions, 20⟩, ⟨"a", .questions, 30⟩, ⟨"a", .questions, 60005⟩]).1.bucket
        "a" .questions = [10, 20, 60005] ∧
    ((runCalls RateLimits.empty [⟨"a", .questions, 0⟩, ⟨"a", .questions, 10⟩,
      ⟨"a", .questions, 20⟩, ⟨"a", .questions, 30⟩, ⟨"a", .questions, 60005⟩]).1.bucket
        "a" .questions).length ≤ (RATE_LIMITS .questions).count :=
  ⟨by unfold ClockMonotone; decide, by decide,
   (bucket_shape [⟨"a", .questions, 0⟩, ⟨"a", .questions, 10⟩, ⟨"a", .questions, 20⟩,
      ⟨"a", .questions, 30⟩, ⟨"a", .questions, 60005⟩] "a" .questions
      (by unfold ClockMonotone; decide)).2⟩

/-- Witness of C16: a teacher pins the second of two questions. -/
theorem toggle_contract_witness :
    (⟨"teacher", "T"⟩ : Conn).role = "teacher" ∧
    (checkRateLimit twoQuestions.rateLimits "T" .teacher 1700000005000).2
      = some { allowed := true, waitSeconds := none } ∧
    (questionPin twoQuestions ⟨"teacher", "T"⟩ 1700000005000 "1700000001000x7q2").questions =
      [⟨"1700000001000x7q2", "Is the exam open book?", 0, [], true, false, 1700000001001⟩,
       ⟨"1700000000000k3f9", "What is a B-tree?", 1, ["B"], false, false, 1700000000001⟩] :=
  ⟨rfl, by decide,
   ((toggle_contract twoQuestions ⟨"teacher", "T"⟩ 1700000005000 "1700000001000x7q2" rfl
      (by decide)).2
      [⟨"1700000000000k3f9", "What is a B-tree?", 1, ["B"], false, false, 1700000000001⟩]
      ⟨"1700000001000x7q2", "Is the exam open book?", 0, [], false, false, 1700000001001⟩ []
      rfl rfl (by decide)).2.2.1.trans (by decide)⟩

/-- Witness of C17: a teacher deletes the second of two questions. -/
theorem delete_contract_witness :
    (⟨"teacher", "T"⟩ : Conn).role = "teacher" ∧
    (checkRateLimit twoQuestions.rateLimits "T" .teacher 1700000005000).2
      = some { allowed := true, waitSeconds := none } ∧
    (questionDelete twoQuestions ⟨"teacher", "T"⟩ 1700000005000 "1700000001000x7q2").questions =
      [⟨"1700000000000k3f9", "What is a B-tree?", 1, ["B"], false, false, 1700000000001⟩] :=
  ⟨rfl, by decide,
   ((delete_contract twoQuestions ⟨"teacher", "T"⟩ 1700000005000 "1700000001000x7q2" rfl
      (by decide)).2
      [⟨"1700000000000k3f9", "What is a B-tree?", 1, ["B"], false, false, 1700000000001⟩]
      ⟨"1700000001000x7q2", "Is the exam open book?", 0, [], false, false, 1700000001001⟩ []
      rfl rfl (by decide)).1⟩

theorem checkRateLimit_allowed_iff (rl : RateLimits) (c : String) (k : ActionClass) (now : Int) :
    (checkRateLimit rl c k now).2 = some { allowed := true, waitSeconds := none } ↔
      rl.throwsFor c = false ∧
      (shiftExpired now (RATE_LIMITS k).windowMs (rl.bucket c k)).length
        < (RATE_LIMITS k).count := by
  by_cases ht : rl.throwsFor c = true
  · rw [checkRateLimit_throws rl c k now ht]
    simp [ht]
  · have ht2 : rl.throwsFor c = false := by simpa using ht
    rw [checkRateLimit_result rl c k now ht2]
    unfold checkBucket
    simp only []
    split
    · rename_i h
      simp only [Option.some.injEq, RateResult.mk.injEq, Bool.false_eq_true, false_and,
        false_iff, not_and, not_lt]
      intro _
      exact h
    · rename_i h
      simp only [true_iff]
      exact ⟨ht2, by omega⟩

theorem checkRateLimit_allowed_bucket (rl : RateLimits) (c : String) (k : ActionClass)
    (now : Int)
    (h : (checkRateLimit rl c k now).2 = some { allowed := true, waitSeconds := none }) :
    (checkRateLimit rl c k now).1.bucket c k =
      shiftExpired now (RATE_LIMITS k).windowMs (rl.bucket c k) ++ [now] := by
  have h2 := (checkRateLimit_allowed_iff rl c k now).mp h
  rw [checkRateLimit_bucket_same rl c k now h2.1]
  unfold checkBucket
  simp only []
  rw [if_neg (by omega)]

theorem checkRateLimit_denied_of_full (rl : RateLimits) (c : String) (k : ActionClass)
    (now : Int) (t0 : Int) (rest : List Int) (ht : rl.throwsFor c = false)
    (hkept : shiftExpired now (RATE_LIMITS k).windowMs (rl.bucket c k) = t0 :: rest)
    (hfull : (RATE_LIMITS k).count ≤ rest.length + 1) :
    (checkRateLimit rl c k now).2 =
      some { allowed := false,
             waitSeconds := some (ceilDiv1000 ((RATE_LIMITS k).windowMs - (now - t0))) } := by
  rw [checkRateLimit_result rl c k now ht]
  unfold checkBucket
  simp only [hkept, List.length_cons, ge_iff_le, hfull, if_true, List.head?_cons,
    Option.map_some']

theorem questionCreate_invalid (s : State) (conn : Conn) (now : Int) (text : String)
    (idNow : Int) (rand : String) (createdAt : Int)
    (hrate : (checkRateLimit s.rateLimits conn.clientId .questions now).2
      = some { allowed := true, waitSeconds := none })
    (hbad : text = "" ∨ jsTrim text = "" ∨ jsLength text > 300) :
    (questionCreate s conn now text idNow rand createdAt).questions = s.questions ∧
    (questionCreate s conn now text idNow rand createdAt).rateLimits =
      (checkRateLimit s.rateLimits conn.clientId .questions now).1 := by
  unfold questionCreate
  simp only [hrate]
  rcases hbad with h | h | h
  · simp [h]
  · simp [h]
  · by_cases h2 : text = "" ∨ jsTrim text = ""
    · rcases h2 with h2 | h2 <;> simp [h2]
    · simp [h]

theorem questionCreate_denied (s : State) (conn : Conn) (now : Int) (text : String)
    (idNow : Int) (rand : String) (createdAt : Int) (w : Option Int)
    (hrate : (checkRateLimit s.rateLimits conn.clientId .questions now).2
      = some { allowed := false, waitSeconds := w }) :
    (questionCreate s conn now text idNow rand createdAt).questions = s.questions := by
  unfold questionCreate
  simp [hrate]

theorem shiftExpired_keep (now W : Int) (l : List Int) (h : ∀ t ∈ l, now - t ≤ W) :
    shiftExpired now W l = l := by
  cases l with
  | nil => rfl
  | cons t rest =>
    have := h t (List.mem_cons_self _ _)
    simp only [shiftExpired]
    rw [if_neg (by omega)]

/-- C18: rejected creates still spend quota. A `question:create` that the rate
check admits and whose text is empty, whitespace-only or longer than 300
appends its time stamp to the `questions` bucket of the client and leaves the
collection unchanged; so after three such creates of a client with an empty
bucket, the first of them admitted, a following create within 60 seconds of the
first is denied. A teacher-only message on a connection that is not a teacher
leaves `rateLimits` unchanged. -/
theorem rejected_create_spends_quota (s : State) (conn : Conn) :
    (∀ (now : Int) (text : String) (idNow : Int) (rand : String) (createdAt : Int),
      (checkRateLimit s.rateLimits conn.clientId .questions now).2
        = some { allowed := true, waitSeconds := none } →
      (text = "" ∨ jsTrim text = "" ∨ jsLength text > 300) →
      (questionCreate s conn now text idNow rand createdAt).questions = s.questions ∧
      (questionCreate s conn now text idNow rand createdAt).rateLimits.bucket
          conn.clientId .questions
        = shiftExpired now 60000 (s.rateLimits.bucket conn.clientId .questions) ++ [now]) ∧
    (∀ (t1 t2 t3 t4 : Int) (text1 text2 text3 text4 : String) (idNow : Int) (rand : String)
        (createdAt : Int),
      s.rateLimits.bucket conn.clientId .questions = [] →
      (checkRateLimit s.rateLimits conn.clientId .questions t1).2
        = some { allowed := true, waitSeconds := none } →
      t1 ≤ t2 → t2 ≤ t3 → t3 ≤ t4 → t4 - t1 ≤ 60000 →
      (text1 = "" ∨ jsTrim text1 = "" ∨ jsLength text1 > 300) →
      (text2 = "" ∨ jsTrim text2 = "" ∨ jsLength text2 > 300) →
      (text3 = "" ∨ jsTrim text3 = "" ∨ jsLength text3 > 300) →
      (run s [⟨conn, t1, .create text1 idNow rand createdAt⟩,
              ⟨conn, t2, .create text2 idNow rand createdAt⟩,
              ⟨conn, t3, .create text3 idNow rand createdAt⟩]).questions = s.questions ∧
      (run s [⟨conn, t1, .create text1 idNow rand createdAt⟩,
              ⟨conn, t2, .create text2 idNow rand createdAt⟩,
              ⟨conn, t3, .create text3 idNow rand createdAt⟩]).rateLimits.bucket
          conn.clientId .questions = [t1, t2, t3] ∧
      (checkRateLimit
        (run s [⟨conn, t1, .create text1 idNow rand createdAt⟩,
                ⟨conn, t2, .create text2 idNow rand createdAt⟩,
                ⟨conn, t3, .create text3 idNow rand createdAt⟩]).rateLimits
        conn.clientId .questions t4).2
        = some { allowed := false,
                 waitSeconds := some (ceilDiv1000 (60000 - (t4 - t1))) } ∧
      (questionCreate
        (run s [⟨conn, t1, .create text1 idNow rand createdAt⟩,
                ⟨conn, t2, .create text2 idNow rand createdAt⟩,
                ⟨conn, t3, .create text3 idNow rand createdAt⟩])
        conn t4 text4 idNow rand createdAt).questions = s.questions) ∧
    (∀ (now : Int) (id : String), conn.role ≠ "teacher" →
      (questionAnswer s conn now id).rateLimits = s.rateLimits ∧
      (questionPin s conn now id).rateLimits = s.rateLimits ∧
      (questionDelete s conn now id).rateLimits = s.rateLimits) := by
  refine ⟨?_, ?_, ?_⟩
  · intro now text idNow rand createdAt hrate hbad
    have h := questionCreate_invalid s conn now text idNow rand createdAt hrate hbad
    refine ⟨h.1, ?_⟩
    rw [h.2]
    exact checkRateLimit_allowed_bucket _ _ _ _ hrate
  · intro t1 t2 t3 t4 text1 text2 text3 text4 idNow rand createdAt hb ha1 h12 h23 h34 hwin
      hbad1 hbad2 hbad3
    have hW : (RATE_LIMITS .questions).windowMs = 60000 := rfl
    have hC : (RATE_LIMITS .questions).count = 3 := rfl
    have ht0 : s.rateLimits.throwsFor conn.clientId = false :=
      ((checkRateLimit_allowed_iff _ _ _ _).mp ha1).1
    -- first create
    have hs1 := questionCreate_invalid s conn t1 text1 idNow rand createdAt ha1 hbad1
    have hb1 : (questionCreate s conn t1 text1 idNow rand createdAt).rateLimits.bucket
        conn.clientId .questions = [t1] := by
      rw [hs1.2, checkRateLimit_allowed_bucket _ _ _ _ ha1, hb]; simp [shiftExpired]
    have ht1 : (questionCreate s conn t1 text1 idNow rand createdAt).rateLimits.throwsFor
        conn.clientId = false := by
      rw [hs1.2, throwsFor_after]; exact ht0
    obtain ⟨s1, hs1def⟩ : ∃ s1, s1 = questionCreate s conn t1 text1 idNow rand createdAt :=
      ⟨_, rfl⟩
    rw [← hs1def] at hs1 hb1 ht1
    -- second create
    have hk2 : shiftExpired t2 60000 [t1] = [t1] :=
      shiftExpired_keep _ _ _ (by intro t ht; simp at ht; omega)
    have ha2 : (checkRateLimit s1.rateLimits conn.clientId .questions t2).2
        = some { allowed := true, waitSeconds := none } := by
      rw [checkRateLimit_allowed_iff, hb1, hC, hW, hk2]; exact ⟨ht1, by simp⟩
    have hs2 := questionCreate_invalid s1 conn t2 text2 idNow rand createdAt ha2 hbad2
    have hb2 : (questionCreate s1 conn t2 text2 idNow rand createdAt).rateLimits.bucket
        conn.clientId .questions = [t1, t2] := by
      rw [hs2.2, checkRateLimit_allowed_bucket _ _ _ _ ha2, hb1, hW, hk2]; rfl
    have ht2 : (questionCreate s1 conn t2 text2 idNow rand createdAt).rateLimits.throwsFor
        conn.clientId = false := by
      rw [hs2.2, throwsFor_after]; exact ht1
    obtain ⟨s2, hs2def⟩ : ∃ s2, s2 = questionCreate s1 conn t2 text2 idNow rand createdAt :=
      ⟨_, rfl⟩
    rw [← hs2def] at hs2 hb2 ht2
    -- third create
    have hk3 : shiftExpired t3 60000 [t1, t2] = [t1, t2] :=
      shiftExpired_keep _ _ _ (by intro t ht; simp at ht; omega)
    have ha3 : (checkRateLimit s2.rateLimits conn.clientId .questions t3).2
        = some { allowed := true, waitSeconds := none } := by
      rw [checkRateLimit_allowed_iff, hb2, hC, hW, hk3]; exact ⟨ht2, by simp⟩
    have hs3 := questionCreate_invalid s2 conn t3 text3 idNow rand createdAt ha3 hbad3
    have hb3 : (questionCreate s2 conn t3 text3 idNow rand createdAt).rateLimits.bucket
        conn.clientId .questions = [t1, t2, t3] := by
      rw [hs3.2, checkRateLimit_allowed_bucket _ _ _ _ ha3, hb2, hW, hk3]; rfl
    have ht3 : (questionCreate s2 conn t3 text3 idNow rand createdAt).rateLimits.throwsFor
        conn.clientId = false := by
      rw [hs3.2, throwsFor_after]; exact ht2
    obtain ⟨s3, hs3def⟩ : ∃ s3, s3 = questionCreate s2 conn t3 text3 idNow rand createdAt :=
      ⟨_, rfl⟩
    rw [← hs3def] at hs3 hb3 ht3
    have hrun : run s [⟨conn, t1, .create text1 idNow rand createdAt⟩,
              ⟨conn, t2, .create text2 idNow rand createdAt⟩,
              ⟨conn, t3, .create text3 idNow rand createdAt⟩] = s3 := by
      rw [hs3def, hs2def, hs1def]
      rfl
    rw [hrun]
    have hq3 : s3.questions = s.questions := by rw [hs3.1, hs2.1, hs1.1]
    have hk4 : shiftExpired t4 (RATE_LIMITS .questions).windowMs
        (s3.rateLimits.bucket conn.clientId .questions) = t1 :: [t2, t3] := by
      rw [hb3, hW]
      exact shiftExpired_keep _ _ _ (by intro t ht; simp at ht; omega)
    have hd4 := checkRateLimit_denied_of_full s3.rateLimits conn.clientId .questions t4 t1
      [t2, t3] ht3 hk4 (by rw [hC]; simp)
    rw [hW] at hd4
    refine ⟨hq3, hb3, hd4, ?_⟩
    rw [questionCreate_denied _ _ _ _ _ _ _ _ hd4, hq3]
  · intro now id hrole
    refine ⟨?_, ?_, ?_⟩
    · unfold questionAnswer; rw [if_pos hrole]
    · unfold questionPin; rw [if_pos hrole]
    · unfold questionDelete; rw [if_pos hrole]

/-- Witness of C18: three blank creations, then a valid one in the fourth second. -/
theorem rejected_create_spends_quota_witness :
    State.init.rateLimits.bucket "A" .questions = [] ∧
    (checkRateLimit State.init.rateLimits "A" .questions 1700000000000).2
      = some { allowed := true, waitSeconds := none } ∧
    ((1700000000000 : Int) ≤ 1700000001000 ∧ (1700000001000 : Int) ≤ 1700000002000 ∧
      (1700000002000 : Int) ≤ 1700000003000 ∧ (1700000003000 : Int) - 1700000000000 ≤ 60000) ∧
    (jsTrim "   " = "" ∧ jsTrim "\n" = "") ∧
    (checkRateLimit
      (run State.init
        [⟨⟨"student", "A"⟩, 1700000000000, .create "" 1700000000000 "k3f9" 1700000000000⟩,
         ⟨⟨"student", "A"⟩, 1700000001000, .create "   " 1700000000000 "k3f9" 1700000000000⟩,
         ⟨⟨"student", "A"⟩, 1700000002000,
            .create "\n" 1700000000000 "k3f9" 1700000000000⟩]).rateLimits
      "A" .questions 1700000003000).2
      = some { allowed := false, waitSeconds := some 57 } ∧
    (questionCreate
      (run State.init
        [⟨⟨"student", "A"⟩, 1700000000000, .create "" 1700000000000 "k3f9" 1700000000000⟩,
         ⟨⟨"student", "A"⟩, 1700000001000, .create "   " 1700000000000 "k3f9" 1700000000000⟩,
         ⟨⟨"student", "A"⟩, 1700000002000,
            .create "\n" 1700000000000 "k3f9" 1700000000000⟩])
      ⟨"student", "A"⟩ 1700000003000 "What is a B-tree?" 1700000000000 "k3f9"
        1700000000000).questions = [] :=
  ⟨by decide, by decide, by decide, by decide, by decide,
   ((rejected_create_spends_quota State.init ⟨"student", "A"⟩).2.1
      1700000000000 1700000001000 1700000002000 1700000003000 "" "   " "\n"
      "What is a B-tree?" 1700000000000 "k3f9" 1700000000000
      (by decide) (by decide) (by decide) (by decide) (by decide) (by decide)
      (Or.inl rfl) (Or.inr (Or.inl (by decide))) (Or.inr (Or.inl (by decide)))).2.2.2⟩

end ClassroomQA
